import Mathlib

/-!
The in-memory storage of the favourites service.

A shallow embedding of `service/storage.go` and `service/types.go`.

* Go maps keyed by `uint` are association lists read through `GoMap.get`;
  `m[k] = v` is `GoMap.set`, `delete(m, k)` is `GoMap.del`, and `range m`
  visits `GoMap.keys`.
* Slices of ids are lists.  A `[]byte` that may be nil is an `Option`.
* `uint` is 64 bits wide; the two counters wrap at `uintSize`.
* Pointers stored in the maps are modelled by the value they point to: the
  storage owns the objects it is handed, so writing through `old` in
  `updateUser` and `updateAsset` is a `GoMap.set` at the same key.
* The mutexes are not part of the state: every operation is modelled as it
  runs when no other goroutine interleaves.  Which mutex a call holds at each
  access of a collection is modelled apart, by the list of its events.
* A Go panic is an explicit outcome that carries the state left behind at
  the moment of the panic.
-/

namespace Service

/-! ## Go maps -/

/-- A Go map with `uint` keys, as the list of its entries. -/
abbrev GoMap (α : Type) := List (Nat × α)

namespace GoMap

/-- The two-valued lookup `v, ok := m[k]`. -/
def get {α : Type} : GoMap α → Nat → Option α
  | [], _ => none
  | (k', v) :: rest, k => if k' = k then some v else get rest k

/-- The assignment `m[k] = v`: overwrite the entry of `k`, or add one. -/
def set {α : Type} : GoMap α → Nat → α → GoMap α
  | [], k, v => [(k, v)]
  | (k', v') :: rest, k, v => if k' = k then (k, v) :: rest else (k', v') :: set rest k v

/-- The builtin `delete(m, k)`. -/
def del {α : Type} : GoMap α → Nat → GoMap α
  | [], _ => []
  | (k', v) :: rest, k => if k' = k then del rest k else (k', v) :: del rest k

/-- The keys visited by `for k := range m`. -/
def keys {α : Type} (m : GoMap α) : List Nat :=
  m.map Prod.fst

end GoMap

/-! ## Outcomes -/

/-- How a call ends: it returns `r`, or it panics leaving `st` behind. -/
inductive Outcome (ρ σ : Type) where
  | ret (r : ρ)
  | panic (st : σ)
deriving DecidableEq, Repr

/-- The error values built in `storage.go` and `types.go`. -/
inductive error where
  /-- The sentinel `ErrExist`, "object already exists". -/
  | ErrExist
  /-- The value of `fmt.Errorf("user id %d does not exist", userID)`. -/
  | userNotExist (userID : Nat)
  /-- The value of `fmt.Errorf("asset id %d does not exist", assetID)`. -/
  | assetNotExist (assetID : Nat)
  /-- The value of `errors.New("email missing")`. -/
  | emailMissing
  /-- The value of `errors.New("name missing")`. -/
  | nameMissing
  /-- The value of `errors.New("incompatible asset type and data")`. -/
  | incompatible
  /-- The value of `fmt.Errorf("unknown gender %s", g)`. -/
  | unknownGender (g : String)
  /-- The value of `fmt.Errorf("unknown asset type: %s", t)`. -/
  | unknownAssetType (t : String)
  /-- An error returned by `json.Unmarshal`. -/
  | jsonError (msg : String)
deriving DecidableEq, Repr

/-- The width of `uint`. -/
def uintSize : Nat := 2 ^ 64

/-! ## types.go -/

def chartType : String := "chart"

def insightType : String := "insight"

def audienceType : String := "audience"

def male : String := "male"

def female : String := "female"

structure user where
  ID : Nat
  Email : String
  Name : String
deriving DecidableEq, Repr

/-- The method `(u *user) validate`. -/
def user.validate (u : user) : Option error :=
  if u.Email = "" then some error.emailMissing
  else if u.Name = "" then some error.nameMissing
  else none

/-- The method `(u *user) update`: the value `u` points to afterwards. -/
def user.update (u y : user) : user :=
  let u1 := if y.Email ≠ "" then { u with Email := y.Email } else u
  if y.Name ≠ "" then { u1 with Name := y.Name } else u1

structure chart where
  Title : String
  TitleAxisX : String
  TitleAxisY : String
  /-- The `[]byte` content; `none` is the nil slice. -/
  Data : Option (List Nat)
deriving DecidableEq, Repr

structure insight where
  Text : String
deriving DecidableEq, Repr

structure ageGroup where
  Min : Nat
  Max : Nat
deriving DecidableEq, Repr

structure audience where
  Gender : String
  BirthCountry : String
  SocialMediaHoursUsage : Nat
  AgeGroup : ageGroup
deriving DecidableEq, Repr

/-- The dynamic values the field `Data any` of an asset can hold.  A pointer
is `none` when it is a nil pointer of its type (the interface holding it is
still non-nil). -/
inductive anyData where
  /-- The nil interface. -/
  | nil
  /-- A `*chart`. -/
  | chartPtr (p : Option chart)
  /-- A `*insight`. -/
  | insightPtr (p : Option insight)
  /-- A `*audience`. -/
  | audiencePtr (p : Option audience)
  /-- A `chart` held by value. -/
  | chartVal (v : chart)
  /-- An `insight` held by value. -/
  | insightVal (v : insight)
  /-- An `audience` held by value. -/
  | audienceVal (v : audience)
  /-- A value of any other dynamic type. -/
  | other
deriving DecidableEq, Repr

structure asset where
  ID : Nat
  /-- The field `Type` of the source. -/
  Type_ : String
  Desc : String
  Data : anyData
deriving DecidableEq, Repr

/-- The method `(a *asset) validate`: `ok` is set by the type assertion of
the case selected by `a.Type_` and stays false when no case is selected. -/
def asset.validate (a : asset) : Option error :=
  let ok : Bool :=
    if a.Type_ = chartType then
      (match a.Data with
        | .chartPtr _ => true
        | _ => false)
    else if a.Type_ = insightType then
      (match a.Data with
        | .insightPtr _ => true
        | _ => false)
    else if a.Type_ = audienceType then
      (match a.Data with
        | .audiencePtr _ => true
        | _ => false)
    else false
  if !ok then some error.incompatible else none

/-- The struct `Alias` declared inside `UnmarshalJSON`; `Data` is the
`json.RawMessage`. -/
structure Alias where
  ID : Nat
  /-- The field `Type` of the source. -/
  Type_ : String
  Desc : String
  Data : List Nat
deriving DecidableEq, Repr

/-- The four uses `UnmarshalJSON` makes of `json.Unmarshal`, a function of
the standard library: each returns the error, or the value stored through
the target pointer.  For the three payload targets, which start as nil
pointers, `none` is the pointer left nil. -/
structure jsonUnmarshal where
  toAlias : List Nat → Except String Alias
  toChart : List Nat → Except String (Option chart)
  toInsight : List Nat → Except String (Option insight)
  toAudience : List Nat → Except String (Option audience)

/-- The method `(a *asset) UnmarshalJSON`: the returned error together with
the asset `a` points to afterwards, or a panic with that asset. -/
def asset.UnmarshalJSON (json : jsonUnmarshal) (a : asset) (b : List Nat) :
    Outcome (asset × Option error) asset :=
  match json.toAlias b with
  | .error msg => .ret (a, some (error.jsonError msg))
  | .ok al =>
    let a1 : asset := { a with ID := al.ID, Type_ := al.Type_, Desc := al.Desc }
    if a1.Type_ = chartType then
      match json.toChart al.Data with
      | .error msg => .ret (a1, some (error.jsonError msg))
      | .ok ch => .ret ({ a1 with Data := anyData.chartPtr ch }, none)
    else if a1.Type_ = insightType then
      match json.toInsight al.Data with
      | .error msg => .ret (a1, some (error.jsonError msg))
      | .ok ins => .ret ({ a1 with Data := anyData.insightPtr ins }, none)
    else if a1.Type_ = audienceType then
      match json.toAudience al.Data with
      | .error msg => .ret (a1, some (error.jsonError msg))
      | .ok none => .panic a1
      | .ok (some au) =>
        if au.Gender = male ∨ au.Gender = female ∨ au.Gender = "" then
          .ret ({ a1 with Data := anyData.audiencePtr (some au) }, none)
        else .ret (a1, some (error.unknownGender au.Gender))
    else .ret (a1, some (error.unknownAssetType a1.Type_))

/-- The chart case of `update`, after the type assertion on `a.Data`
succeeded with the pointer `v2`: a field of `v` that is not the zero value
is written through `v2`, which panics when `v2` is nil. -/
def chart.merge (v2 : Option chart) (v : chart) : Option (Option chart) :=
  match v2 with
  | none =>
    if v.Title ≠ "" ∨ v.TitleAxisX ≠ "" ∨ v.TitleAxisY ≠ "" ∨ v.Data ≠ none then none
    else some none
  | some c =>
    let c1 := if v.Title ≠ "" then { c with Title := v.Title } else c
    let c2 := if v.TitleAxisX ≠ "" then { c1 with TitleAxisX := v.TitleAxisX } else c1
    let c3 := if v.TitleAxisY ≠ "" then { c2 with TitleAxisY := v.TitleAxisY } else c2
    let c4 := if v.Data ≠ none then { c3 with Data := v.Data } else c3
    some (some c4)

/-- The insight case of `update`, as `chart.merge`. -/
def insight.merge (v2 : Option insight) (v : insight) : Option (Option insight) :=
  match v2 with
  | none => if v.Text ≠ "" then none else some none
  | some i =>
    let i1 := if v.Text ≠ "" then { i with Text := v.Text } else i
    some (some i1)

/-- The audience case of `update`, as `chart.merge`. -/
def audience.merge (v2 : Option audience) (v : audience) : Option (Option audience) :=
  match v2 with
  | none =>
    if v.Gender ≠ "" ∨ v.AgeGroup.Max ≠ 0 ∨ v.AgeGroup.Min ≠ 0 ∨
        v.SocialMediaHoursUsage ≠ 0 ∨ v.BirthCountry ≠ "" then none
    else some none
  | some x =>
    let x1 := if v.Gender ≠ "" then { x with Gender := v.Gender } else x
    let x2 := if v.AgeGroup.Max ≠ 0 then
      { x1 with AgeGroup := { x1.AgeGroup with Max := v.AgeGroup.Max } } else x1
    let x3 := if v.AgeGroup.Min ≠ 0 then
      { x2 with AgeGroup := { x2.AgeGroup with Min := v.AgeGroup.Min } } else x2
    let x4 := if v.SocialMediaHoursUsage ≠ 0 then
      { x3 with SocialMediaHoursUsage := v.SocialMediaHoursUsage } else x3
    let x5 := if v.BirthCountry ≠ "" then { x4 with BirthCountry := v.BirthCountry } else x4
    some (some x5)

/-- The method `(a *asset) update`: the asset `a` points to when the call
returns, or when it panics.  The type switch on `b.Data` has the cases
`chart`, `insight` and `audience`, the value types; every other dynamic
type, the pointer types included, takes `default: panic(v)`. -/
def asset.update (a b : asset) : Outcome asset asset :=
  let a1 : asset := if b.Desc ≠ "" then { a with Desc := b.Desc } else a
  match b.Data with
  | .nil => .ret a1
  | .chartVal v =>
    (match a1.Data with
      | .chartPtr v2 =>
        (match chart.merge v2 v with
          | none => .panic a1
          | some p => .ret { a1 with Data := anyData.chartPtr p, Type_ := chartType })
      | _ => .panic a1)
  | .insightVal v =>
    (match a1.Data with
      | .insightPtr v2 =>
        (match insight.merge v2 v with
          | none => .panic a1
          | some p => .ret { a1 with Data := anyData.insightPtr p, Type_ := insightType })
      | _ => .panic a1)
  | .audienceVal v =>
    (match a1.Data with
      | .audiencePtr v2 =>
        (match audience.merge v2 v with
          | none => .panic a1
          | some p => .ret { a1 with Data := anyData.audiencePtr p, Type_ := audienceType })
      | _ => .panic a1)
  | _ => .panic a1

/-! ## storage.go -/

structure storage where
  users : GoMap user
  userCounter : Nat
  assets : GoMap asset
  assetCounter : Nat
  favourites : GoMap (List Nat)
deriving DecidableEq, Repr

def newStorage : storage :=
  { users := [], userCounter := 0, assets := [], assetCounter := 0, favourites := [] }

namespace storage

/-- The method `(s *storage) user`. -/
def user (s : storage) (userID : Nat) : Except error Service.user :=
  match s.users.get userID with
  | none => .error (error.userNotExist userID)
  | some u => .ok u

/-- The method `(s *storage) asset`. -/
def asset (s : storage) (assetID : Nat) : Except error Service.asset :=
  match s.assets.get assetID with
  | none => .error (error.assetNotExist assetID)
  | some a => .ok a

/-- The loop of `userFavourites` over the ids still to visit, `acc` being
the slice `assets` built so far.  An element is `s.assets[id]`, a pointer
that is nil (`none`) when the id is not a key; reading `.Type_` through a nil
pointer panics. -/
def favouritesLoop (s : storage) (atype : String) :
    List Nat → List (Option Service.asset) → Outcome (List (Option Service.asset)) Unit
  | [], acc => .ret acc
  | id :: rest, acc =>
    if atype = "" then favouritesLoop s atype rest (acc ++ [s.assets.get id])
    else
      match s.assets.get id with
      | none => .panic ()
      | some a =>
        if a.Type_ = atype then favouritesLoop s atype rest (acc ++ [some a])
        else favouritesLoop s atype rest acc

/-- The method `(s *storage) userFavourites`: the returned slice and error. -/
def userFavourites (s : storage) (userID : Nat) (atype : String) :
    Outcome (List (Option Service.asset) × Option error) Unit :=
  match s.user userID with
  | .error err => .ret ([], some err)
  | .ok _ =>
    match s.favourites.get userID with
    | none => .ret ([], none)
    | some ids =>
      match favouritesLoop s atype ids [] with
      | .panic () => .panic ()
      | .ret assets => .ret (assets, none)

/-- The method `(s *storage) addUser`: the storage afterwards and the id. -/
def addUser (s : storage) (u : Service.user) : storage × Nat :=
  let c := (s.userCounter + 1) % uintSize
  ({ s with userCounter := c, users := s.users.set c { u with ID := c } }, c)

/-- The method `(s *storage) addAsset`: the storage afterwards and the id. -/
def addAsset (s : storage) (a : Service.asset) : storage × Nat :=
  let c := (s.assetCounter + 1) % uintSize
  ({ s with assetCounter := c, assets := s.assets.set c { a with ID := c } }, c)

/-- The loop `for _, id := range assets { if id == assetID ... }` of
`addFavourites`: whether it reaches its `return ErrExist`. -/
def rangeHas (assetID : Nat) : List Nat → Bool
  | [] => false
  | id :: rest => if id = assetID then true else rangeHas assetID rest

/-- The method `(s *storage) addFavourites`: the storage afterwards and the
returned error. -/
def addFavourites (s : storage) (userID assetID : Nat) : storage × Option error :=
  match s.user userID with
  | .error err => (s, some err)
  | .ok _ =>
    match s.asset assetID with
    | .error err => (s, some err)
    | .ok _ =>
      let assets := (s.favourites.get userID).getD []
      let s1 : storage :=
        if (s.favourites.get userID).isNone then
          { s with favourites := s.favourites.set userID [] }
        else s
      if rangeHas assetID assets then (s1, some error.ErrExist)
      else
        ({ s1 with favourites :=
            s1.favourites.set userID ((s1.favourites.get userID).getD [] ++ [assetID]) }, none)

/-- The method `(s *storage) updateUser`. -/
def updateUser (s : storage) (new : Service.user) : storage × Option error :=
  match s.user new.ID with
  | .error err => (s, some err)
  | .ok old => ({ s with users := s.users.set new.ID (old.update new) }, none)

/-- The method `(s *storage) updateAsset`: the storage afterwards and the
returned error, or the storage left behind when `old.update(new)` panics. -/
def updateAsset (s : storage) (new : Service.asset) : Outcome (storage × Option error) storage :=
  match s.asset new.ID with
  | .error err => .ret (s, some err)
  | .ok old =>
    match old.update new with
    | .ret a => .ret ({ s with assets := s.assets.set new.ID a }, none)
    | .panic a => .panic { s with assets := s.assets.set new.ID a }

/-- The storage `updateAsset` leaves behind, however it ended. -/
def afterUpdateAsset (s : storage) (new : Service.asset) : storage :=
  match s.updateAsset new with
  | .ret r => r.1
  | .panic st => st

/-- The method `(s *storage) deleteUser`. -/
def deleteUser (s : storage) (userID : Nat) : storage :=
  { s with users := s.users.del userID, favourites := s.favourites.del userID }

/-- The loop `for i, id := range assets { if id == assetID ... }` of
`deleteFavourite`: the index `i` at which it reaches its body, if it does. -/
def rangeIndex (assetID : Nat) : List Nat → Option Nat
  | [] => none
  | id :: rest => if id = assetID then some 0 else (rangeIndex assetID rest).map (· + 1)

/-- The method `(s *storage) deleteFavourite`. -/
def deleteFavourite (s : storage) (userID assetID : Nat) : storage :=
  match s.favourites.get userID with
  | none => s
  | some assets =>
    match rangeIndex assetID assets with
    | none => s
    | some i =>
      { s with favourites := s.favourites.set userID (assets.take i ++ assets.drop (i + 1)) }

/-- The method `(s *storage) deleteAsset`: the loop `range s.favourites`
visits each key once and its body neither adds nor removes a key.  Go leaves
the order of the visit open; the keys are taken in the order of the list
(`deleteLoop_any_order` gives the same sequences for every order when no
sequence holds an id twice). -/
def deleteAsset (s : storage) (assetID : Nat) : storage :=
  let s1 : storage := { s with assets := s.assets.del assetID }
  s1.favourites.keys.foldl (fun st user => st.deleteFavourite user assetID) s1

end storage

/-- The storage states reached from `newStorage()` by calls of the storage's
mutating methods, with any arguments; a panicking `updateAsset` that is
recovered leaves the state it had reached. -/
inductive Reachable : storage → Prop where
  | newStorage : Reachable newStorage
  | addUser (s : storage) (u : user) : Reachable s → Reachable (s.addUser u).1
  | addAsset (s : storage) (a : asset) : Reachable s → Reachable (s.addAsset a).1
  | addFavourites (s : storage) (userID assetID : Nat) :
      Reachable s → Reachable (s.addFavourites userID assetID).1
  | updateUser (s : storage) (new : user) : Reachable s → Reachable (s.updateUser new).1
  | updateAsset (s : storage) (new : asset) : Reachable s → Reachable (s.afterUpdateAsset new)
  | deleteUser (s : storage) (userID : Nat) : Reachable s → Reachable (s.deleteUser userID)
  | deleteAsset (s : storage) (assetID : Nat) : Reachable s → Reachable (s.deleteAsset assetID)
  | deleteFavourite (s : storage) (userID assetID : Nat) :
      Reachable s → Reachable (s.deleteFavourite userID assetID)

/-- The consistency of the favourites with the two other collections: a
sequence holds no id twice, every id in it is a key of `assets`, and its
user is a key of `users`. -/
def storage.Consistent (s : storage) : Prop :=
  ∀ u l, s.favourites.get u = some l →
    l.Nodup ∧ (∀ a ∈ l, ∃ x, s.assets.get a = some x) ∧ ∃ y, s.users.get u = some y

/-- The first user added by `TestStorageSequential`. -/
def john : user := { ID := 0, Email := "john@gmail.com", Name := "John" }

/-- The asset `a1` of `TestStorageSequential`. -/
def asset1 : asset :=
  { ID := 0, Type_ := "insight", Desc := "This is asset 1",
    Data := anyData.insightPtr (some { Text := "A simple insight" }) }

/-- The storage of `TestStorageSequential` with one user and one asset. -/
def storage11 : storage := ((newStorage.addUser john).1.addAsset asset1).1

/-- The storage of `TestStorageSequential` after `addFavourites(1, 1)`. -/
def storageFav : storage := (storage11.addFavourites 1 1).1

/-- The variant named by the case of the type switch of `update` that a
patch payload selects: `chart`, `insight` or `audience` held by value; none
for every payload that takes the default case. -/
def anyData.switchCase : anyData → Option String
  | .chartVal _ => some chartType
  | .insightVal _ => some insightType
  | .audienceVal _ => some audienceType
  | _ => none

/-- The variant whose type assertion in `update` and `validate` a stored
payload passes: `*chart`, `*insight` or `*audience`. -/
def anyData.asserted : anyData → Option String
  | .chartPtr _ => some chartType
  | .insightPtr _ => some insightType
  | .audiencePtr _ => some audienceType
  | _ => none

/-- The patch of `TestStorageSequential`: a description and no payload. -/
def descPatch : asset := { ID := 1, Type_ := "", Desc := "Updated desc", Data := anyData.nil }

/-- A patch for asset 1 that carries a chart by value. -/
def chartPatch : asset :=
  { ID := 1, Type_ := "chart", Desc := "Updated desc",
    Data := anyData.chartVal { Title := "t", TitleAxisX := "", TitleAxisY := "", Data := none } }

/-- What `json.Unmarshal` answers on the request body
`{"type":"insight","data":{"text":"Another insight"}}`: the envelope, and
for the raw payload an insight with that text; decoded as a chart or as an
audience the same payload gives a value with no field set. -/
def insightBody : jsonUnmarshal :=
  { toAlias := fun b => .ok { ID := 0, Type_ := "insight", Desc := "", Data := b }
    toChart := fun _ => .ok (some { Title := "", TitleAxisX := "", TitleAxisY := "", Data := none })
    toInsight := fun _ => .ok (some { Text := "Another insight" })
    toAudience := fun _ =>
      .ok (some { Gender := "", BirthCountry := "", SocialMediaHoursUsage := 0,
                  AgeGroup := { Min := 0, Max := 0 } }) }

/-- The zero value of `asset`, the receiver `var a asset` of a decode. -/
def zeroAsset : asset := { ID := 0, Type_ := "", Desc := "", Data := anyData.nil }

/-- The asset decoded from that body. -/
def insightDecoded : asset :=
  { ID := 0, Type_ := "insight", Desc := "",
    Data := anyData.insightPtr (some { Text := "Another insight" }) }

/-- No favourites sequence of the storage holds the same asset id twice. -/
def storage.NoDuplicates (s : storage) : Prop :=
  ∀ u l, s.favourites.get u = some l → l.Nodup

/-- A patch for user 1 that carries a name and no email. -/
def namePatch : user := { ID := 1, Email := "", Name := "Johnny" }

/-- The audience of `TestAssetUnmarshalJSON`. -/
def greekAudience : audience :=
  { Gender := "male", BirthCountry := "Greece", SocialMediaHoursUsage := 0,
    AgeGroup := { Min := 15, Max := 30 } }

/-- What `json.Unmarshal` answers on the bytes of `TestAssetUnmarshalJSON`:
the envelope with type `audience` and description `just a desc`, and for
the raw payload the audience of the test; decoded as a chart or as an
insight the same payload gives a value with no field set. -/
def audienceBody : jsonUnmarshal :=
  { toAlias := fun b => .ok { ID := 0, Type_ := "audience", Desc := "just a desc", Data := b }
    toChart := fun _ => .ok (some { Title := "", TitleAxisX := "", TitleAxisY := "", Data := none })
    toInsight := fun _ => .ok (some { Text := "" })
    toAudience := fun _ => .ok (some greekAudience) }

/-- What `json.Unmarshal` answers on the body
`{"type":"audience","data":{"gender":"unknown"}}`. -/
def genderBody : jsonUnmarshal :=
  { toAlias := fun b => .ok { ID := 0, Type_ := "audience", Desc := "", Data := b }
    toChart := fun _ => .ok (some { Title := "", TitleAxisX := "", TitleAxisY := "", Data := none })
    toInsight := fun _ => .ok (some { Text := "" })
    toAudience := fun _ =>
      .ok (some { Gender := "unknown", BirthCountry := "", SocialMediaHoursUsage := 0,
                  AgeGroup := { Min := 0, Max := 0 } }) }

/-- What `json.Unmarshal` answers on the body `{"type":"audience","data":null}`:
the raw payload is the literal `null`, which leaves a nil target pointer nil
and is no error. -/
def nullBody : jsonUnmarshal :=
  { toAlias := fun b => .ok { ID := 0, Type_ := "audience", Desc := "", Data := b }
    toChart := fun _ => .ok none
    toInsight := fun _ => .ok none
    toAudience := fun _ => .ok none }

/-- A patch for asset 1 that carries an insight by value. -/
def insightPatch : asset :=
  { ID := 1, Type_ := "", Desc := "", Data := anyData.insightVal { Text := "Another insight" } }

/-- A call of one of the storage's mutating methods, with its arguments. -/
inductive Op where
  | addUser (u : user)
  | addAsset (a : asset)
  | addFavourites (userID assetID : Nat)
  | updateUser (new : user)
  | updateAsset (new : asset)
  | deleteUser (userID : Nat)
  | deleteAsset (assetID : Nat)
  | deleteFavourite (userID assetID : Nat)

/-- The storage after the call `op`. -/
def storage.step (s : storage) : Op → storage
  | .addUser u => (s.addUser u).1
  | .addAsset a => (s.addAsset a).1
  | .addFavourites userID assetID => (s.addFavourites userID assetID).1
  | .updateUser new => (s.updateUser new).1
  | .updateAsset new => s.afterUpdateAsset new
  | .deleteUser userID => s.deleteUser userID
  | .deleteAsset assetID => s.deleteAsset assetID
  | .deleteFavourite userID assetID => s.deleteFavourite userID assetID

/-- The storage after the calls `ops`, made one after the other. -/
def storage.run (s : storage) (ops : List Op) : storage :=
  ops.foldl storage.step s

/-- Whether the call is an `addUser`. -/
def Op.isAddUser : Op → Bool
  | .addUser _ => true
  | _ => false

/-- Whether the call is an `addAsset`. -/
def Op.isAddAsset : Op → Bool
  | .addAsset _ => true
  | _ => false

/-- The ids of `users` and `assets` after `nu` calls of `addUser` and `na`
calls of `addAsset`: each counter is the number of calls modulo `uintSize`,
and as long as that number is below `uintSize` every key lies between 1 and
the number of calls. -/
def storage.Counted (s : storage) (nu na : Nat) : Prop :=
  s.userCounter = nu % uintSize ∧ s.assetCounter = na % uintSize ∧
  (nu < uintSize → ∀ k x, s.users.get k = some x → 1 ≤ k ∧ k ≤ nu) ∧
  (na < uintSize → ∀ k x, s.assets.get k = some x → 1 ≤ k ∧ k ≤ na)

/-! ## handlers.go: the paging of `handleGetFavourites` -/

/-- The value an `int` takes for the exact result `z` of an arithmetic
operation: `int` is 64 bits wide and wraps around. -/
def wrapInt (z : Int) : Int := (z + 2 ^ 63) % 2 ^ 64 - 2 ^ 63

/-- The variable `pageSize`. -/
def pageSize : Int := 1000

/-- The function `min` of `handlers.go`. -/
def min (a b : Int) : Int := if a < b then a else b

/-- The slice expression `assets[low:high]` on a slice with the elements
`assets` and the capacity `capacity`: it panics (`none`) unless
`0 <= low <= high <= capacity`.  Only the elements below the length are
modelled. -/
def sliceExpr {α : Type} (assets : List α) (capacity : Nat) (low high : Int) :
    Option (List α) :=
  if 0 ≤ low ∧ low ≤ high ∧ high ≤ (capacity : Int) then
    some ((assets.take high.toNat).drop low.toNat)
  else none

/-- The lines of `handleGetFavourites` after the call of `userFavourites`:
the slice `assets`, of capacity `capacity`, is cut to the page when
`page >= 0` and then to the limit when `limit >= 0`.  The result is the
slice that is encoded, or a panic of a slice expression. -/
def handleGetFavouritesPage {α : Type} (assets : List α) (capacity : Nat) (page limit : Int) :
    Outcome (List α) Unit :=
  let paged : Option (List α × Nat) :=
    if page ≥ 0 then
      let start := min (wrapInt (page * pageSize)) (assets.length : Int)
      let end_ := min (wrapInt (wrapInt (page + 1) * pageSize)) (assets.length : Int)
      (sliceExpr assets capacity start end_).map (fun l => (l, capacity - start.toNat))
    else some (assets, capacity)
  match paged with
  | none => .panic ()
  | some (assets1, capacity1) =>
    if limit ≥ 0 then
      match sliceExpr assets1 capacity1 0 (min limit (assets1.length : Int)) with
      | none => .panic ()
      | some assets2 => .ret assets2
    else .ret assets1

/-! ## storage.go: the mutexes -/

/-- The three collections of the storage; each has its `sync.RWMutex`
(`usersMu`, `assetsMu`, `favouritesMu`). -/
inductive Coll where
  | users
  | assets
  | favourites
deriving DecidableEq, Repr

/-- What one call does, in program order, to the mutexes and the maps: the
calls `Lock`, `RLock`, `Unlock`, `RUnlock` on the mutex of a collection, and
the reads and writes of a collection (its map, the objects it holds and its
counter). -/
inductive Event where
  | Lock (c : Coll)
  | RLock (c : Coll)
  | Unlock (c : Coll)
  | RUnlock (c : Coll)
  | read (c : Coll)
  | write (c : Coll)
deriving DecidableEq, Repr

/-- Whether every read in the events happens while the mutex of its
collection is held, shared or exclusive, and every write while it is held
exclusive; `excl` and `shared` are the mutexes held at the start. -/
def guardedFrom (excl shared : List Coll) : List Event → Bool
  | [] => true
  | .Lock c :: rest => guardedFrom (c :: excl) shared rest
  | .RLock c :: rest => guardedFrom excl (c :: shared) rest
  | .Unlock c :: rest => guardedFrom (excl.erase c) shared rest
  | .RUnlock c :: rest => guardedFrom excl (shared.erase c) rest
  | .read c :: rest =>
    (decide (c ∈ excl) || decide (c ∈ shared)) && guardedFrom excl shared rest
  | .write c :: rest => decide (c ∈ excl) && guardedFrom excl shared rest

/-- The lock discipline of one call that starts with no mutex held. -/
def guarded (events : List Event) : Bool := guardedFrom [] [] events

namespace storage

/-- The events of `getUsers`: `len(s.users)` and the range, under
`usersMu.RLock`. -/
def getUsersEvents : List Event :=
  [.RLock .users, .read .users, .read .users, .RUnlock .users]

/-- The events of `getAssets`. -/
def getAssetsEvents : List Event :=
  [.RLock .assets, .read .assets, .read .assets, .RUnlock .assets]

/-- The events of `userWithRLock`. -/
def userWithRLockEvents : List Event :=
  [.RLock .users, .read .users, .RUnlock .users]

/-- The events of `assetWithRLock`. -/
def assetWithRLockEvents : List Event :=
  [.RLock .assets, .read .assets, .RUnlock .assets]

/-- The events of the loop of `userFavourites`, as `favouritesLoop` runs it:
no read of `s.assets[id]` for the condition when `atype` is empty, one for
the append when the asset is kept; the loop ends at a panic. -/
def favouritesLoopEvents (s : storage) (atype : String) : List Nat → List Event
  | [] => []
  | id :: rest =>
    if atype = "" then .read .assets :: favouritesLoopEvents s atype rest
    else
      match s.assets.get id with
      | none => [.read .assets]
      | some a =>
        if a.Type_ = atype then
          .read .assets :: .read .assets :: favouritesLoopEvents s atype rest
        else .read .assets :: favouritesLoopEvents s atype rest

/-- The events of `userFavourites`: `favouritesMu.RLock`; `s.user` reads
`users`; then, when the user exists, `s.favourites[userID]` and the loop;
the deferred `RUnlock`. -/
def userFavouritesEvents (s : storage) (userID : Nat) (atype : String) : List Event :=
  [.RLock .favourites, .read .users] ++
  (match s.user userID with
    | .error _ => []
    | .ok _ =>
      [.read .favourites] ++
      (match s.favourites.get userID with
        | none => []
        | some ids => favouritesLoopEvents s atype ids)) ++
  [.RUnlock .favourites]

/-- The events of `addUser`. -/
def addUserEvents : List Event :=
  [.Lock .users, .write .users, .write .users, .Unlock .users]

/-- The events of `addAsset`. -/
def addAssetEvents : List Event :=
  [.Lock .assets, .write .assets, .write .assets, .Unlock .assets]

/-- The events of `addFavourites`: `favouritesMu.Lock`; `s.user` reads
`users`; `s.asset` reads `assets`; the lookup, the assignment of the empty
slice when there is no entry, the loop over the local slice, and the read
and write of the final assignment; the deferred `Unlock`. -/
def addFavouritesEvents (s : storage) (userID assetID : Nat) : List Event :=
  [.Lock .favourites, .read .users] ++
  (match s.user userID with
    | .error _ => []
    | .ok _ =>
      [.read .assets] ++
      (match s.asset assetID with
        | .error _ => []
        | .ok _ =>
          [.read .favourites] ++
          (if (s.favourites.get userID).isNone then [.write .favourites] else []) ++
          (if rangeHas assetID ((s.favourites.get userID).getD []) then []
            else [.read .favourites, .write .favourites]))) ++
  [.Unlock .favourites]

/-- The events of `updateUser`: the user that `old` points to is written
when it is found. -/
def updateUserEvents (s : storage) (new : Service.user) : List Event :=
  [.Lock .users, .read .users] ++
  (match s.user new.ID with
    | .error _ => []
    | .ok _ => [.write .users]) ++
  [.Unlock .users]

/-- The events of `updateAsset`. -/
def updateAssetEvents (s : storage) (new : Service.asset) : List Event :=
  [.Lock .assets, .read .assets] ++
  (match s.asset new.ID with
    | .error _ => []
    | .ok _ => [.write .assets]) ++
  [.Unlock .assets]

/-- The events of `deleteUser`; the deferred calls run last in, first out. -/
def deleteUserEvents : List Event :=
  [.Lock .users, .Lock .favourites, .write .users, .write .favourites,
    .Unlock .favourites, .Unlock .users]

/-- The events of `deleteFavourite`. -/
def deleteFavouriteEvents (s : storage) (userID assetID : Nat) : List Event :=
  [.Lock .favourites, .read .favourites] ++
  (match s.favourites.get userID with
    | none => []
    | some assets =>
      match rangeIndex assetID assets with
      | none => []
      | some _ => [.write .favourites]) ++
  [.Unlock .favourites]

/-- The events of the loop of `deleteAsset` over the keys `us`, from the
storage `st`: each round is a call of `deleteFavourite`. -/
def deleteLoopEvents (assetID : Nat) : List Nat → storage → List Event
  | [], _ => []
  | user :: rest, st =>
    deleteFavouriteEvents st user assetID ++
      deleteLoopEvents assetID rest (st.deleteFavourite user assetID)

/-- The events of `deleteAsset`: `assetsMu.Lock`, the `delete`, the range
over `s.favourites`, which reads that map, the calls of `deleteFavourite`,
and the deferred `Unlock`. -/
def deleteAssetEvents (s : storage) (assetID : Nat) : List Event :=
  [.Lock .assets, .write .assets, .read .favourites] ++
  deleteLoopEvents assetID s.favourites.keys { s with assets := s.assets.del assetID } ++
  [.Unlock .assets]

end storage

/-- What `json.Unmarshal` answers on the body `{"type":"chart","data":null}`:
the raw payload is the literal `null`, which leaves a nil target pointer nil
and is no error. -/
def nullChartBody : jsonUnmarshal :=
  { toAlias := fun b => .ok { ID := 0, Type_ := "chart", Desc := "", Data := b }
    toChart := fun _ => .ok none
    toInsight := fun _ => .ok none
    toAudience := fun _ => .ok none }

/-! ## Lookups in a Go map -/

namespace GoMap

theorem get_set_self {α : Type} (m : GoMap α) (k : Nat) (v : α) :
    (m.set k v).get k = some v := by
  induction m with
  | nil => simp [set, get]
  | cons p rest ih =>
    obtain ⟨k', v'⟩ := p
    by_cases hk : k' = k
    · simp [set, get, hk]
    · simp [set, get, hk, ih]

theorem get_set_ne {α : Type} (m : GoMap α) (k k' : Nat) (v : α) (h : k' ≠ k) :
    (m.set k v).get k' = m.get k' := by
  induction m with
  | nil => simp [set, get, Ne.symm h]
  | cons p rest ih =>
    obtain ⟨k0, v0⟩ := p
    by_cases hk : k0 = k
    · subst hk
      simp [set, get, Ne.symm h]
    · by_cases hk' : k0 = k'
      · subst hk'
        simp [set, get, hk]
      · simp [set, get, hk, hk', ih]

theorem get_set {α : Type} (m : GoMap α) (k k' : Nat) (v : α) :
    (m.set k v).get k' = if k' = k then some v else m.get k' := by
  by_cases h : k' = k
  · subst h
    simp [get_set_self]
  · simp [h, get_set_ne m k k' v h]

theorem get_del {α : Type} (m : GoMap α) (k k' : Nat) :
    (m.del k).get k' = if k' = k then none else m.get k' := by
  induction m with
  | nil => simp [del, get]
  | cons p rest ih =>
    obtain ⟨k0, v0⟩ := p
    by_cases hk : k0 = k
    · subst hk
      by_cases h : k' = k0
      · subst h
        simpa [del] using ih
      · simp [del, ih, h, get, Ne.symm h]
    · by_cases h : k' = k
      · subst h
        simp [del, hk, get, ih]
      · simp [del, hk, get, ih, h]

theorem mem_keys_of_get {α : Type} (m : GoMap α) (k : Nat) (v : α) (h : m.get k = some v) :
    k ∈ m.keys := by
  induction m with
  | nil => simp [get] at h
  | cons p rest ih =>
    obtain ⟨k0, v0⟩ := p
    by_cases hk : k0 = k
    · simp [keys, hk]
    · simp only [get, hk, if_false] at h
      have := ih h
      simp only [keys, List.map_cons, List.mem_cons] at this ⊢
      exact Or.inr this

end GoMap

/-! ## The two loops over a favourites sequence -/

namespace storage

theorem rangeHas_iff (a : Nat) (l : List Nat) : rangeHas a l = true ↔ a ∈ l := by
  induction l with
  | nil => simp [rangeHas]
  | cons id rest ih =>
    by_cases h : id = a
    · simp [rangeHas, h]
    · have h' : ¬ a = id := fun e => h e.symm
      simp [rangeHas, h, h', ih]

theorem rangeIndex_none_iff (a : Nat) (l : List Nat) : rangeIndex a l = none ↔ a ∉ l := by
  induction l with
  | nil => simp [rangeIndex]
  | cons id rest ih =>
    by_cases h : id = a
    · simp [rangeIndex, h]
    · have h' : ¬ a = id := fun e => h e.symm
      simp [rangeIndex, h, h', ih]

theorem rangeIndex_erase (a : Nat) (l : List Nat) (i : Nat) (h : rangeIndex a l = some i) :
    l.take i ++ l.drop (i + 1) = l.erase a := by
  induction l generalizing i with
  | nil => simp [rangeIndex] at h
  | cons id rest ih =>
    by_cases hid : id = a
    · subst hid
      simp only [rangeIndex, if_true, Option.some.injEq] at h
      subst h
      simp
    · simp only [rangeIndex, hid, if_false, Option.map_eq_some'] at h
      obtain ⟨j, hj, rfl⟩ := h
      have := ih j hj
      simp [List.erase_cons, hid, this]

theorem rangeIndex_split (a : Nat) (l : List Nat) (i : Nat) (h : rangeIndex a l = some i) :
    a ∉ l.take i ∧ l = l.take i ++ a :: l.drop (i + 1) := by
  induction l generalizing i with
  | nil => simp [rangeIndex] at h
  | cons id rest ih =>
    by_cases hid : id = a
    · subst hid
      simp only [rangeIndex, if_true, Option.some.injEq] at h
      subst h
      simp
    · simp only [rangeIndex, hid, if_false, Option.map_eq_some'] at h
      obtain ⟨j, hj, rfl⟩ := h
      obtain ⟨h1, h2⟩ := ih j hj
      have hid' : ¬ a = id := fun e => hid e.symm
      refine ⟨by simp [hid', h1], ?_⟩
      simp only [List.take_succ_cons, List.drop_succ_cons, List.cons_append]
      exact congrArg (List.cons id) h2

/-! ## What each operation does to the three collections -/

theorem deleteFavourite_users (s : storage) (u a : Nat) :
    (s.deleteFavourite u a).users = s.users := by
  unfold deleteFavourite
  split
  · rfl
  · split <;> rfl

theorem deleteFavourite_assets (s : storage) (u a : Nat) :
    (s.deleteFavourite u a).assets = s.assets := by
  unfold deleteFavourite
  split
  · rfl
  · split <;> rfl

theorem deleteFavourite_get (s : storage) (u a u' : Nat) :
    (s.deleteFavourite u a).favourites.get u' =
      if u' = u then (s.favourites.get u').map (fun l => l.erase a)
      else s.favourites.get u' := by
  unfold deleteFavourite
  split
  · next hnone =>
    by_cases h : u' = u
    · subst h
      simp [hnone]
    · simp [h]
  · next assets hsome =>
    split
    · next hidx =>
      have hmem : a ∉ assets := (rangeIndex_none_iff a assets).1 hidx
      by_cases h : u' = u
      · subst h
        simp [hsome, List.erase_of_not_mem hmem]
      · simp [h]
    · next i hidx =>
      by_cases h : u' = u
      · subst h
        simp [hsome, GoMap.get_set_self, rangeIndex_erase a assets i hidx]
      · simp [h, GoMap.get_set_ne _ _ _ _ h]

theorem deleteLoop_users (a : Nat) (us : List Nat) (st : storage) :
    (us.foldl (fun st user => st.deleteFavourite user a) st).users = st.users := by
  induction us generalizing st with
  | nil => rfl
  | cons u0 rest ih => simp [List.foldl_cons, ih, deleteFavourite_users]

theorem deleteLoop_assets (a : Nat) (us : List Nat) (st : storage) :
    (us.foldl (fun st user => st.deleteFavourite user a) st).assets = st.assets := by
  induction us generalizing st with
  | nil => rfl
  | cons u0 rest ih => simp [List.foldl_cons, ih, deleteFavourite_assets]

theorem filter_ne_idem (a : Nat) (l : List Nat) :
    (l.filter (fun id => id != a)).filter (fun id => id != a) = l.filter (fun id => id != a) := by
  simp [List.filter_filter]

theorem deleteLoop_get (a : Nat) (us : List Nat) (st : storage)
    (hnd : ∀ u l, st.favourites.get u = some l → l.Nodup) (u : Nat) :
    (us.foldl (fun st user => st.deleteFavourite user a) st).favourites.get u =
      if u ∈ us then (st.favourites.get u).map (fun l => l.filter (fun id => id != a))
      else st.favourites.get u := by
  induction us generalizing st with
  | nil => simp
  | cons u0 rest ih =>
    have hnd1 : ∀ v l, (st.deleteFavourite u0 a).favourites.get v = some l → l.Nodup := by
      intro v l hv
      rw [deleteFavourite_get] at hv
      by_cases h : v = u0
      · simp only [h, if_true, Option.map_eq_some'] at hv
        obtain ⟨l0, hl0, rfl⟩ := hv
        exact (hnd u0 l0 hl0).erase a
      · simp only [h, if_false] at hv
        exact hnd v l hv
    rw [List.foldl_cons, ih _ hnd1, deleteFavourite_get]
    by_cases h : u = u0
    · subst h
      cases hget : st.favourites.get u with
      | none => simp
      | some l =>
        have he : l.erase a = l.filter (fun id => id != a) := (hnd u l hget).erase_eq_filter a
        simp [he, filter_ne_idem]
    · simp [h]

theorem deleteLoop_any_order (a : Nat) (us : List Nat) (st : storage)
    (hnd : ∀ u l, st.favourites.get u = some l → l.Nodup)
    (hkeys : ∀ k ∈ st.favourites.keys, k ∈ us) (u : Nat) :
    (us.foldl (fun st user => st.deleteFavourite user a) st).favourites.get u =
      (st.favourites.get u).map (fun l => l.filter (fun id => id != a)) := by
  rw [deleteLoop_get a us st hnd u]
  cases hget : st.favourites.get u with
  | none => simp
  | some l => simp [hkeys u (GoMap.mem_keys_of_get _ u l hget)]

theorem deleteAsset_users (s : storage) (a : Nat) : (s.deleteAsset a).users = s.users := by
  simp [deleteAsset, deleteLoop_users]

theorem deleteAsset_assets (s : storage) (a : Nat) :
    (s.deleteAsset a).assets = s.assets.del a := by
  simp [deleteAsset, deleteLoop_assets]

theorem deleteAsset_get (s : storage) (a : Nat)
    (hnd : ∀ u l, s.favourites.get u = some l → l.Nodup) (u : Nat) :
    (s.deleteAsset a).favourites.get u =
      (s.favourites.get u).map (fun l => l.filter (fun id => id != a)) := by
  unfold deleteAsset
  simp only []
  exact deleteLoop_any_order a _ { s with assets := s.assets.del a } hnd (fun _ hk => hk) u

theorem addFavourites_no_user (s : storage) (u a : Nat) (hu : s.users.get u = none) :
    s.addFavourites u a = (s, some (error.userNotExist u)) := by
  simp [addFavourites, storage.user, hu]

theorem addFavourites_no_asset (s : storage) (u a : Nat) (x : Service.user)
    (hu : s.users.get u = some x) (ha : s.assets.get a = none) :
    s.addFavourites u a = (s, some (error.assetNotExist a)) := by
  simp [addFavourites, storage.user, storage.asset, hu, ha]

theorem addFavourites_present (s : storage) (u a : Nat) (x : Service.user) (y : Service.asset)
    (l : List Nat) (hu : s.users.get u = some x) (ha : s.assets.get a = some y)
    (hl : s.favourites.get u = some l) (hmem : a ∈ l) :
    s.addFavourites u a = (s, some error.ErrExist) := by
  have hr : rangeHas a l = true := (rangeHas_iff a l).2 hmem
  simp [addFavourites, storage.user, storage.asset, hu, ha, hl, hr]

theorem addFavourites_fresh (s : storage) (u a : Nat) (x : Service.user) (y : Service.asset)
    (hu : s.users.get u = some x) (ha : s.assets.get a = some y)
    (hmem : a ∉ (s.favourites.get u).getD []) :
    (s.addFavourites u a).2 = none ∧
    (s.addFavourites u a).1.users = s.users ∧
    (s.addFavourites u a).1.assets = s.assets ∧
    (s.addFavourites u a).1.userCounter = s.userCounter ∧
    (s.addFavourites u a).1.assetCounter = s.assetCounter ∧
    ∀ u', (s.addFavourites u a).1.favourites.get u' =
      if u' = u then some ((s.favourites.get u).getD [] ++ [a]) else s.favourites.get u' := by
  have hr : rangeHas a ((s.favourites.get u).getD []) = false := by
    cases h : rangeHas a ((s.favourites.get u).getD []) with
    | false => rfl
    | true => exact absurd ((rangeHas_iff a _).1 h) hmem
  cases hl : s.favourites.get u with
  | none =>
    rw [hl] at hr
    simp only [addFavourites, storage.user, storage.asset, hu, ha, hl, hr]
    refine ⟨rfl, rfl, rfl, rfl, rfl, ?_⟩
    intro u'
    by_cases h : u' = u
    · simp [GoMap.get_set, h]
    · simp [GoMap.get_set, h, hl]
  | some l =>
    rw [hl] at hr
    simp only [addFavourites, storage.user, storage.asset, hu, ha, hl, hr]
    refine ⟨rfl, rfl, rfl, rfl, rfl, ?_⟩
    intro u'
    simp [GoMap.get_set, hl]

/-! ## Consistency of every reachable storage -/

theorem consistent_addUser (s : storage) (u : Service.user) (h : s.Consistent) :
    (s.addUser u).1.Consistent := by
  intro v l hv
  obtain ⟨h1, h2, y, hy⟩ := h v l hv
  refine ⟨h1, h2, ?_⟩
  simp only [addUser, GoMap.get_set]
  split
  · exact ⟨_, rfl⟩
  · exact ⟨y, hy⟩

theorem consistent_addAsset (s : storage) (a : Service.asset) (h : s.Consistent) :
    (s.addAsset a).1.Consistent := by
  intro v l hv
  obtain ⟨h1, h2, h3⟩ := h v l hv
  refine ⟨h1, ?_, h3⟩
  intro b hb
  obtain ⟨x, hx⟩ := h2 b hb
  simp only [addAsset, GoMap.get_set]
  split
  · exact ⟨_, rfl⟩
  · exact ⟨x, hx⟩

theorem consistent_addFavourites (s : storage) (u a : Nat) (h : s.Consistent) :
    (s.addFavourites u a).1.Consistent := by
  cases hu : s.users.get u with
  | none => rw [addFavourites_no_user s u a hu]; exact h
  | some x =>
    cases ha : s.assets.get a with
    | none => rw [addFavourites_no_asset s u a x hu ha]; exact h
    | some y =>
      by_cases hmem : a ∈ (s.favourites.get u).getD []
      · cases hl : s.favourites.get u with
        | none => simp [hl] at hmem
        | some l =>
          rw [hl] at hmem
          rw [addFavourites_present s u a x y l hu ha hl hmem]
          exact h
      · obtain ⟨-, husers, hassets, -, -, hget⟩ := addFavourites_fresh s u a x y hu ha hmem
        intro v l hv
        rw [hget] at hv
        rw [husers, hassets]
        by_cases hvu : v = u
        · subst hvu
          simp only [if_true, Option.some.injEq] at hv
          subst hv
          have hold : ((s.favourites.get v).getD []).Nodup ∧
              ∀ b ∈ (s.favourites.get v).getD [], ∃ z, s.assets.get b = some z := by
            cases hl : s.favourites.get v with
            | none => simp
            | some l0 => exact ⟨(h v l0 hl).1, (h v l0 hl).2.1⟩
          refine ⟨?_, ?_, ⟨x, hu⟩⟩
          · rw [List.nodup_append]
            refine ⟨hold.1, List.nodup_singleton a, ?_⟩
            intro b hb hb'
            rw [List.mem_singleton] at hb'
            subst hb'
            exact hmem hb
          · intro b hb
            rw [List.mem_append, List.mem_singleton] at hb
            rcases hb with hb | hb
            · exact hold.2 b hb
            · subst hb
              exact ⟨y, ha⟩
        · simp only [hvu, if_false] at hv
          exact h v l hv

theorem consistent_updateUser (s : storage) (new : Service.user) (h : s.Consistent) :
    (s.updateUser new).1.Consistent := by
  unfold updateUser storage.user
  cases hu : s.users.get new.ID with
  | none => exact h
  | some old =>
    intro v l hv
    obtain ⟨h1, h2, y, hy⟩ := h v l hv
    refine ⟨h1, h2, ?_⟩
    simp only [GoMap.get_set]
    split
    · exact ⟨_, rfl⟩
    · exact ⟨y, hy⟩

theorem afterUpdateAsset_eq (s : storage) (new : Service.asset) :
    s.afterUpdateAsset new = s ∨
      ∃ a, s.afterUpdateAsset new = { s with assets := s.assets.set new.ID a } := by
  unfold afterUpdateAsset updateAsset storage.asset
  cases s.assets.get new.ID with
  | none => exact Or.inl rfl
  | some old =>
    cases hup : old.update new with
    | ret a => exact Or.inr ⟨a, by simp [hup]⟩
    | panic a => exact Or.inr ⟨a, by simp [hup]⟩

theorem consistent_updateAsset (s : storage) (new : Service.asset) (h : s.Consistent) :
    (s.afterUpdateAsset new).Consistent := by
  rcases afterUpdateAsset_eq s new with he | ⟨a, he⟩
  · rw [he]; exact h
  · rw [he]
    intro v l hv
    obtain ⟨h1, h2, h3⟩ := h v l hv
    refine ⟨h1, ?_, h3⟩
    intro b hb
    obtain ⟨x, hx⟩ := h2 b hb
    simp only [GoMap.get_set]
    split
    · exact ⟨_, rfl⟩
    · exact ⟨x, hx⟩

theorem consistent_deleteUser (s : storage) (u : Nat) (h : s.Consistent) :
    (s.deleteUser u).Consistent := by
  intro v l hv
  simp only [deleteUser, GoMap.get_del] at hv ⊢
  by_cases hvu : v = u
  · simp [hvu] at hv
  · simp only [hvu, if_false] at hv ⊢
    exact h v l hv

theorem consistent_deleteFavourite (s : storage) (u a : Nat) (h : s.Consistent) :
    (s.deleteFavourite u a).Consistent := by
  intro v l hv
  rw [deleteFavourite_get] at hv
  rw [deleteFavourite_users, deleteFavourite_assets]
  by_cases hvu : v = u
  · simp only [hvu, if_true, Option.map_eq_some'] at hv
    obtain ⟨l0, hl0, rfl⟩ := hv
    obtain ⟨h1, h2, h3⟩ := h u l0 hl0
    rw [hvu]
    exact ⟨h1.erase a, fun b hb => h2 b (List.mem_of_mem_erase hb), h3⟩
  · simp only [hvu, if_false] at hv
    exact h v l hv

theorem consistent_deleteAsset (s : storage) (a : Nat) (h : s.Consistent) :
    (s.deleteAsset a).Consistent := by
  intro v l hv
  rw [deleteAsset_get s a (fun u l hl => (h u l hl).1)] at hv
  rw [deleteAsset_users, deleteAsset_assets]
  simp only [Option.map_eq_some'] at hv
  obtain ⟨l0, hl0, rfl⟩ := hv
  obtain ⟨h1, h2, h3⟩ := h v l0 hl0
  refine ⟨h1.filter _, ?_, h3⟩
  intro b hb
  rw [List.mem_filter] at hb
  obtain ⟨hb1, hb2⟩ := hb
  have hne : b ≠ a := by simpa using hb2
  rw [GoMap.get_del]
  simp only [hne, if_false]
  exact h2 b hb1

theorem consistent_of_reachable (s : storage) (h : Reachable s) : s.Consistent := by
  induction h with
  | newStorage =>
    intro v l hv
    simp [newStorage, GoMap.get] at hv
  | addUser s u _ ih => exact consistent_addUser s u ih
  | addAsset s a _ ih => exact consistent_addAsset s a ih
  | addFavourites s u a _ ih => exact consistent_addFavourites s u a ih
  | updateUser s new _ ih => exact consistent_updateUser s new ih
  | updateAsset s new _ ih => exact consistent_updateAsset s new ih
  | deleteUser s u _ ih => exact consistent_deleteUser s u ih
  | deleteAsset s a _ ih => exact consistent_deleteAsset s a ih
  | deleteFavourite s u a _ ih => exact consistent_deleteFavourite s u a ih

theorem favouritesLoop_resolved (s : storage) (t : String) (ids : List Nat)
    (found : List Service.asset) (acc : List (Option Service.asset))
    (h : ids.map s.assets.get = found.map some) :
    favouritesLoop s t ids acc =
      .ret (acc ++ (found.filter (fun a => decide (t = "" ∨ a.Type_ = t))).map some) := by
  induction ids generalizing found acc with
  | nil =>
    cases found with
    | nil => simp [favouritesLoop]
    | cons a rest => simp at h
  | cons id rest ih =>
    cases found with
    | nil => simp at h
    | cons a restFound =>
      simp only [List.map_cons, List.cons.injEq] at h
      obtain ⟨hid, hrest⟩ := h
      by_cases ht : t = ""
      · subst ht
        have := ih restFound (acc ++ [some a]) hrest
        simp only [true_or, decide_True, List.filter_true] at this
        simp [favouritesLoop, hid, this]
      · by_cases hty : a.Type_ = t
        · simp [favouritesLoop, ht, hid, hty, ih restFound _ hrest]
        · simp [favouritesLoop, ht, hid, hty, ih restFound _ hrest]

theorem resolved_of_consistent (s : storage) (h : s.Consistent) (u : Nat) :
    ∃ found : List Service.asset,
      ((s.favourites.get u).getD []).map s.assets.get = found.map some := by
  have hall : ∀ b ∈ (s.favourites.get u).getD [], ∃ z, s.assets.get b = some z := by
    cases hl : s.favourites.get u with
    | none => simp
    | some l => exact (h u l hl).2.1
  generalize (s.favourites.get u).getD [] = ids at hall
  induction ids with
  | nil => exact ⟨[], rfl⟩
  | cons id rest ih =>
    obtain ⟨z, hz⟩ := hall id (List.mem_cons_self id rest)
    obtain ⟨found, hfound⟩ := ih (fun b hb => hall b (List.mem_cons_of_mem id hb))
    exact ⟨z :: found, by simp [hz, hfound]⟩

end storage

/-! ## Deleting an asset -/

theorem reachable_storageFav : Reachable storageFav :=
  Reachable.addFavourites _ 1 1
    (Reachable.addAsset _ asset1 (Reachable.addUser _ john Reachable.newStorage))

/-- C1: in a storage reached from `newStorage()`, after `deleteAsset(a)` the
id `a` is not a key of `assets`, no favourites sequence contains `a`, every
sequence is the old one without `a` (the other ids in their old order), and
`users` is unchanged. -/
theorem deleteAsset_strips_favourites (s : storage) (h : Reachable s) (a : Nat) :
    (s.deleteAsset a).assets.get a = none ∧
    (∀ u l, (s.deleteAsset a).favourites.get u = some l → a ∉ l) ∧
    (∀ u, (s.deleteAsset a).favourites.get u =
      (s.favourites.get u).map (fun l => l.filter (fun id => id != a))) ∧
    (s.deleteAsset a).users = s.users := by
  have hnd : ∀ u l, s.favourites.get u = some l → l.Nodup :=
    fun u l hl => (storage.consistent_of_reachable s h u l hl).1
  refine ⟨?_, ?_, storage.deleteAsset_get s a hnd, storage.deleteAsset_users s a⟩
  · rw [storage.deleteAsset_assets, GoMap.get_del]
    simp
  · intro u l hl
    rw [storage.deleteAsset_get s a hnd, Option.map_eq_some'] at hl
    obtain ⟨l0, -, rfl⟩ := hl
    simp [List.mem_filter]

theorem deleteAsset_strips_favourites_witness :
    Reachable storageFav ∧
    (storageFav.deleteAsset 1).assets.get 1 = none ∧
    (∀ u l, (storageFav.deleteAsset 1).favourites.get u = some l → 1 ∉ l) ∧
    (∀ u, (storageFav.deleteAsset 1).favourites.get u =
      (storageFav.favourites.get u).map (fun l => l.filter (fun id => id != 1))) ∧
    (storageFav.deleteAsset 1).users = storageFav.users :=
  ⟨reachable_storageFav, deleteAsset_strips_favourites storageFav reachable_storageFav 1⟩

/-! ## Adding a favourite -/

/-- C2: when user `u` and asset `a` exist and `a` is already in the
favourites sequence of `u`, `addFavourites(u, a)` returns `ErrExist` and the
storage (users, assets and every favourites sequence) is unchanged. -/
theorem addFavourites_duplicate (s : storage) (u a : Nat) (x : user) (y : asset) (l : List Nat)
    (hu : s.users.get u = some x) (ha : s.assets.get a = some y)
    (hl : s.favourites.get u = some l) (hmem : a ∈ l) :
    s.addFavourites u a = (s, some error.ErrExist) :=
  storage.addFavourites_present s u a x y l hu ha hl hmem

theorem addFavourites_duplicate_witness :
    storageFav.users.get 1 = some { john with ID := 1 } ∧
    storageFav.assets.get 1 = some { asset1 with ID := 1 } ∧
    storageFav.favourites.get 1 = some [1] ∧ 1 ∈ [1] ∧
    storageFav.addFavourites 1 1 = (storageFav, some error.ErrExist) :=
  ⟨by decide, by decide, by decide, by decide,
    addFavourites_duplicate storageFav 1 1 { john with ID := 1 } { asset1 with ID := 1 } [1]
      (by decide) (by decide) (by decide) (by decide)⟩

/-- C3: when `u` is not a key of `users` or `a` is not a key of `assets`,
`addFavourites(u, a)` returns an error that is not `ErrExist` (the one of
`s.user`, else the one of `s.asset`) and the storage is unchanged. -/
theorem addFavourites_missing (s : storage) (u a : Nat)
    (h : s.users.get u = none ∨ s.assets.get a = none) :
    ∃ err, s.addFavourites u a = (s, some err) ∧ err ≠ error.ErrExist ∧
      (err = error.userNotExist u ∨ err = error.assetNotExist a) := by
  cases hu : s.users.get u with
  | none =>
    exact ⟨error.userNotExist u, storage.addFavourites_no_user s u a hu, by simp, Or.inl rfl⟩
  | some x =>
    have ha : s.assets.get a = none := by
      rcases h with h | h
      · rw [hu] at h; cases h
      · exact h
    exact ⟨error.assetNotExist a, storage.addFavourites_no_asset s u a x hu ha, by simp,
      Or.inr rfl⟩

theorem addFavourites_missing_witness :
    (storage11.users.get 1 = none ∨ storage11.assets.get 7 = none) ∧
    ∃ err, storage11.addFavourites 1 7 = (storage11, some err) ∧ err ≠ error.ErrExist ∧
      (err = error.userNotExist 1 ∨ err = error.assetNotExist 7) :=
  ⟨Or.inr (by decide), addFavourites_missing storage11 1 7 (Or.inr (by decide))⟩

/-- C4: when user `u` and asset `a` exist and `a` is not in the favourites
sequence of `u` (the empty one when `u` has no entry), `addFavourites(u, a)`
returns nil, the sequence of `u` becomes the old one with `a` appended, and
the other sequences, `users` and `assets` are unchanged. -/
theorem addFavourites_appends (s : storage) (u a : Nat) (x : user) (y : asset)
    (hu : s.users.get u = some x) (ha : s.assets.get a = some y)
    (hmem : a ∉ (s.favourites.get u).getD []) :
    (s.addFavourites u a).2 = none ∧
    (s.addFavourites u a).1.favourites.get u = some ((s.favourites.get u).getD [] ++ [a]) ∧
    (∀ v, v ≠ u → (s.addFavourites u a).1.favourites.get v = s.favourites.get v) ∧
    (s.addFavourites u a).1.users = s.users ∧
    (s.addFavourites u a).1.assets = s.assets := by
  obtain ⟨h1, h2, h3, -, -, h6⟩ := storage.addFavourites_fresh s u a x y hu ha hmem
  refine ⟨h1, ?_, ?_, h2, h3⟩
  · rw [h6]; simp
  · intro v hv
    rw [h6]; simp [hv]

theorem addFavourites_appends_witness :
    storage11.users.get 1 = some { john with ID := 1 } ∧
    storage11.assets.get 1 = some { asset1 with ID := 1 } ∧
    1 ∉ (storage11.favourites.get 1).getD [] ∧
    (storage11.addFavourites 1 1).2 = none ∧
    (storage11.addFavourites 1 1).1.favourites.get 1 =
      some ((storage11.favourites.get 1).getD [] ++ [1]) ∧
    (∀ v, v ≠ 1 → (storage11.addFavourites 1 1).1.favourites.get v =
      storage11.favourites.get v) ∧
    (storage11.addFavourites 1 1).1.users = storage11.users ∧
    (storage11.addFavourites 1 1).1.assets = storage11.assets :=
  ⟨by decide, by decide, by decide,
    addFavourites_appends storage11 1 1 { john with ID := 1 } { asset1 with ID := 1 }
      (by decide) (by decide) (by decide)⟩

/-! ## Removing a favourite -/

/-- C5: when user `u` and asset `a` exist and `a` is not in the favourites
sequence of `u`, `addFavourites(u, a)` followed by `deleteFavourite(u, a)`
gives back the sequence `u` had before the add (the empty sequence when `u`
had no entry, whose entry then holds the empty sequence), and leaves every
other entry, `users` and `assets` as they were. -/
theorem addFavourites_deleteFavourite (s : storage) (u a : Nat) (x : user) (y : asset)
    (hu : s.users.get u = some x) (ha : s.assets.get a = some y)
    (hmem : a ∉ (s.favourites.get u).getD []) :
    (((s.addFavourites u a).1.deleteFavourite u a).favourites.get u).getD [] =
      (s.favourites.get u).getD [] ∧
    ((s.addFavourites u a).1.deleteFavourite u a).favourites.get u =
      some ((s.favourites.get u).getD []) ∧
    (∀ v, v ≠ u →
      ((s.addFavourites u a).1.deleteFavourite u a).favourites.get v = s.favourites.get v) ∧
    ((s.addFavourites u a).1.deleteFavourite u a).users = s.users ∧
    ((s.addFavourites u a).1.deleteFavourite u a).assets = s.assets := by
  obtain ⟨-, h2, h3, -, -, h6⟩ := storage.addFavourites_fresh s u a x y hu ha hmem
  have hget : ((s.addFavourites u a).1.deleteFavourite u a).favourites.get u =
      some ((s.favourites.get u).getD []) := by
    rw [storage.deleteFavourite_get, h6]
    simp [List.erase_append_right _ hmem]
  refine ⟨by rw [hget]; rfl, hget, ?_, ?_, ?_⟩
  · intro v hv
    rw [storage.deleteFavourite_get, h6]
    simp [hv]
  · rw [storage.deleteFavourite_users, h2]
  · rw [storage.deleteFavourite_assets, h3]

theorem addFavourites_deleteFavourite_witness :
    storage11.users.get 1 = some { john with ID := 1 } ∧
    storage11.assets.get 1 = some { asset1 with ID := 1 } ∧
    1 ∉ (storage11.favourites.get 1).getD [] ∧
    (((storage11.addFavourites 1 1).1.deleteFavourite 1 1).favourites.get 1).getD [] =
      (storage11.favourites.get 1).getD [] ∧
    ((storage11.addFavourites 1 1).1.deleteFavourite 1 1).favourites.get 1 =
      some ((storage11.favourites.get 1).getD []) ∧
    (∀ v, v ≠ 1 →
      ((storage11.addFavourites 1 1).1.deleteFavourite 1 1).favourites.get v =
        storage11.favourites.get v) ∧
    ((storage11.addFavourites 1 1).1.deleteFavourite 1 1).users = storage11.users ∧
    ((storage11.addFavourites 1 1).1.deleteFavourite 1 1).assets = storage11.assets :=
  ⟨by decide, by decide, by decide,
    addFavourites_deleteFavourite storage11 1 1 { john with ID := 1 } { asset1 with ID := 1 }
      (by decide) (by decide) (by decide)⟩

/-- C6: `deleteFavourite(u, a)` leaves the storage as it is when `u` has no
favourites entry or `a` is not in the sequence of `u`; otherwise the
sequence `pre ++ a :: post` of `u`, with `a` not in `pre`, becomes
`pre ++ post`.  In both cases the other entries, `users` and `assets` are
unchanged. -/
theorem deleteFavourite_removes (s : storage) (u a : Nat) :
    ((s.favourites.get u = none ∨ ∃ l, s.favourites.get u = some l ∧ a ∉ l) →
      s.deleteFavourite u a = s) ∧
    (∀ l, s.favourites.get u = some l → a ∈ l →
      ∃ pre post, l = pre ++ a :: post ∧ a ∉ pre ∧
        (s.deleteFavourite u a).favourites.get u = some (pre ++ post)) ∧
    (∀ v, v ≠ u → (s.deleteFavourite u a).favourites.get v = s.favourites.get v) ∧
    (s.deleteFavourite u a).users = s.users ∧
    (s.deleteFavourite u a).assets = s.assets := by
  refine ⟨?_, ?_, ?_, storage.deleteFavourite_users s u a, storage.deleteFavourite_assets s u a⟩
  · rintro (hnone | ⟨l, hl, hmem⟩)
    · simp [storage.deleteFavourite, hnone]
    · simp [storage.deleteFavourite, hl, (storage.rangeIndex_none_iff a l).2 hmem]
  · intro l hl hmem
    cases hidx : storage.rangeIndex a l with
    | none => exact absurd hmem ((storage.rangeIndex_none_iff a l).1 hidx)
    | some i =>
      obtain ⟨hpre, hsplit⟩ := storage.rangeIndex_split a l i hidx
      refine ⟨l.take i, l.drop (i + 1), hsplit, hpre, ?_⟩
      simp [storage.deleteFavourite, hl, hidx, GoMap.get_set_self]
  · intro v hv
    rw [storage.deleteFavourite_get]
    simp [hv]

/-! ## Listing the favourites of a user -/

/-- C7: in a storage reached from `newStorage()`, `userFavourites(u, t)`
returns the error of `s.user` when `u` is not a key of `users`; when it is,
it returns no error and the assets stored under the ids of the favourites
sequence of `u` (each id is a key of `assets`), in the order of the
sequence, all of them when `t` is empty and otherwise those whose `Type`
is `t`. -/
theorem userFavourites_lists (s : storage) (h : Reachable s) (u : Nat) (t : String) :
    (s.users.get u = none → s.userFavourites u t = .ret ([], some (error.userNotExist u))) ∧
    (∀ x, s.users.get u = some x →
      ∃ found : List asset,
        ((s.favourites.get u).getD []).map s.assets.get = found.map some ∧
        s.userFavourites u t =
          .ret ((found.filter (fun a => decide (t = "" ∨ a.Type_ = t))).map some, none)) := by
  constructor
  · intro hu
    simp [storage.userFavourites, storage.user, hu]
  · intro x hu
    obtain ⟨found, hfound⟩ :=
      storage.resolved_of_consistent s (storage.consistent_of_reachable s h) u
    refine ⟨found, hfound, ?_⟩
    cases hl : s.favourites.get u with
    | none =>
      rw [hl] at hfound
      cases found with
      | nil => simp [storage.userFavourites, storage.user, hu, hl]
      | cons a rest => simp at hfound
    | some ids =>
      rw [hl] at hfound
      simp [storage.userFavourites, storage.user, hu, hl,
        storage.favouritesLoop_resolved s t ids found [] hfound]

theorem userFavourites_lists_witness :
    Reachable storageFav ∧
    (storageFav.users.get 1 = none →
      storageFav.userFavourites 1 "chart" = .ret ([], some (error.userNotExist 1))) ∧
    (∀ x, storageFav.users.get 1 = some x →
      ∃ found : List asset,
        ((storageFav.favourites.get 1).getD []).map storageFav.assets.get = found.map some ∧
        storageFav.userFavourites 1 "chart" =
          .ret ((found.filter (fun a => decide ("chart" = "" ∨ a.Type_ = "chart"))).map some,
            none)) :=
  ⟨reachable_storageFav, userFavourites_lists storageFav reachable_storageFav 1 "chart"⟩

/-! ## Updating an asset -/

theorem update_no_payload (a b : asset) (hdata : b.Data = anyData.nil) :
    a.update b = .ret (if b.Desc ≠ "" then { a with Desc := b.Desc } else a) := by
  simp [asset.update, hdata]

theorem decoded_payload (json : jsonUnmarshal) (a0 : asset) (b : List Nat) (p : asset)
    (hdec : asset.UnmarshalJSON json a0 b = .ret (p, none)) :
    (∃ q, p.Data = anyData.chartPtr q) ∨ (∃ q, p.Data = anyData.insightPtr q) ∨
      (∃ q, p.Data = anyData.audiencePtr q) := by
  unfold asset.UnmarshalJSON at hdec
  split at hdec
  · simp at hdec
  · simp only [] at hdec
    split_ifs at hdec
    · split at hdec
      · simp at hdec
      · simp only [Outcome.ret.injEq, Prod.mk.injEq, and_true] at hdec
        exact Or.inl ⟨_, by rw [← hdec]⟩
    · split at hdec
      · simp at hdec
      · simp only [Outcome.ret.injEq, Prod.mk.injEq, and_true] at hdec
        exact Or.inr (Or.inl ⟨_, by rw [← hdec]⟩)
    · split at hdec
      · simp at hdec
      · simp at hdec
      · split_ifs at hdec
        · simp only [Outcome.ret.injEq, Prod.mk.injEq, and_true] at hdec
          exact Or.inr (Or.inr ⟨_, by rw [← hdec]⟩)
        · simp at hdec
    · simp at hdec

theorem update_pointer_payload (a b : asset)
    (hptr : (∃ q, b.Data = anyData.chartPtr q) ∨ (∃ q, b.Data = anyData.insightPtr q) ∨
      (∃ q, b.Data = anyData.audiencePtr q)) :
    a.update b = .panic (if b.Desc ≠ "" then { a with Desc := b.Desc } else a) := by
  rcases hptr with ⟨q, hq⟩ | ⟨q, hq⟩ | ⟨q, hq⟩ <;> simp [asset.update, hq]

theorem update_other_variant (a b : asset) (w : String)
    (hcase : b.Data.switchCase = some w) (hne : a.Data.asserted ≠ some w) :
    a.update b = .panic (if b.Desc ≠ "" then { a with Desc := b.Desc } else a) := by
  obtain ⟨i, ty, de, d⟩ := a
  by_cases hdesc : b.Desc = ""
  · cases hb : b.Data <;> simp [hb, anyData.switchCase] at hcase <;> subst hcase <;>
      cases d <;> simp [asset.update, hb, hdesc, anyData.asserted] at hne ⊢
  · cases hb : b.Data <;> simp [hb, anyData.switchCase] at hcase <;> subst hcase <;>
      cases d <;> simp [asset.update, hb, hdesc, anyData.asserted] at hne ⊢

/-- C8: for an asset `old` stored under id `i` and a patch with that id, a
non-empty `Desc` and a nil `Data`, `updateAsset` returns nil; afterwards the
asset under `i` is `old` with the patch's `Desc` (same `ID`, `Type` and
payload), and the other assets, `users` and `favourites` are unchanged. -/
theorem updateAsset_description_only (s : storage) (i : Nat) (old new : asset)
    (hold : s.assets.get i = some old) (hid : new.ID = i) (hdesc : new.Desc ≠ "")
    (hdata : new.Data = anyData.nil) :
    ∃ s', s.updateAsset new = .ret (s', none) ∧
      s'.assets.get i = some { old with Desc := new.Desc } ∧
      (∀ j, j ≠ i → s'.assets.get j = s.assets.get j) ∧
      s'.users = s.users ∧ s'.favourites = s.favourites := by
  subst hid
  refine ⟨{ s with assets := s.assets.set new.ID { old with Desc := new.Desc } }, ?_,
    GoMap.get_set_self _ _ _, fun j hj => GoMap.get_set_ne _ _ _ _ hj, rfl, rfl⟩
  simp [storage.updateAsset, storage.asset, hold, update_no_payload old new hdata, hdesc]

theorem updateAsset_description_only_witness :
    storage11.assets.get 1 = some { asset1 with ID := 1 } ∧
    descPatch.ID = 1 ∧ descPatch.Desc ≠ "" ∧ descPatch.Data = anyData.nil ∧
    ∃ s', storage11.updateAsset descPatch = .ret (s', none) ∧
      s'.assets.get 1 = some { asset1 with ID := 1, Desc := "Updated desc" } ∧
      (∀ j, j ≠ 1 → s'.assets.get j = storage11.assets.get j) ∧
      s'.users = storage11.users ∧ s'.favourites = storage11.favourites :=
  ⟨by decide, by decide, by decide, by decide,
    updateAsset_description_only storage11 1 { asset1 with ID := 1 } descPatch
      (by decide) (by decide) (by decide) (by decide)⟩

/-- C9, as the code runs: a patch that `UnmarshalJSON` decoded without error
carries a pointer payload, so for an asset `old` stored under `id` the call
`updateAsset` of the patch with `ID` set to `id` (as `handleUpdateAsset`
sets it) takes the default case of the type switch and panics; the stored
payload is not merged, only the description has been written. -/
theorem updateAsset_decoded_patch_panics (json : jsonUnmarshal) (a0 : asset) (b : List Nat)
    (p : asset) (hdec : asset.UnmarshalJSON json a0 b = .ret (p, none))
    (s : storage) (id : Nat) (old : asset) (hold : s.assets.get id = some old) :
    ∃ st, s.updateAsset { p with ID := id } = .panic st ∧
      st.assets.get id = some (if p.Desc ≠ "" then { old with Desc := p.Desc } else old) ∧
      (∀ j, j ≠ id → st.assets.get j = s.assets.get j) ∧
      st.users = s.users ∧ st.favourites = s.favourites := by
  have hptr := decoded_payload json a0 b p hdec
  have hup := update_pointer_payload old { p with ID := id } hptr
  simp only [] at hup
  refine ⟨{ s with
      assets := (s.assets.set id (if p.Desc ≠ "" then { old with Desc := p.Desc } else old)) },
    ?_,
    GoMap.get_set_self _ _ _, fun j hj => GoMap.get_set_ne _ _ _ _ hj, rfl, rfl⟩
  simp only [storage.updateAsset, storage.asset, hold, hup]

theorem updateAsset_decoded_patch_panics_witness :
    asset.UnmarshalJSON insightBody zeroAsset [] = .ret (insightDecoded, none) ∧
    storage11.assets.get 1 = some { asset1 with ID := 1 } ∧
    ∃ st, storage11.updateAsset { insightDecoded with ID := 1 } = .panic st ∧
      st.assets.get 1 = some (if insightDecoded.Desc ≠ "" then
        { asset1 with ID := 1, Desc := insightDecoded.Desc } else { asset1 with ID := 1 }) ∧
      (∀ j, j ≠ 1 → st.assets.get j = storage11.assets.get j) ∧
      st.users = storage11.users ∧ st.favourites = storage11.favourites :=
  ⟨by decide, by decide,
    updateAsset_decoded_patch_panics insightBody zeroAsset [] insightDecoded (by decide)
      storage11 1 { asset1 with ID := 1 } (by decide)⟩

/-- C10, the claim at a concrete input: on the stored insight 1, the patch
`chartPatch`, whose payload is a chart, makes `updateAsset` panic, and the
stored description has been overwritten. -/
theorem updateAsset_chart_on_insight_panics :
    storage11.updateAsset chartPatch =
      .panic { storage11 with
        assets := [(1, { asset1 with ID := 1, Desc := "Updated desc" })] } := by
  decide

/-- C10, as the code runs: for an asset `old` stored under the patch's id,
when the patch payload is a chart, insight or audience value and the stored
payload is not a pointer to that same variant, `updateAsset` panics on the
failed type assertion.  At the panic the stored asset has the patch's
description when that is non-empty and is otherwise `old`; the other
assets, `users` and `favourites` are unchanged. -/
theorem updateAsset_other_variant_panics (s : storage) (old new : asset) (w : String)
    (hold : s.assets.get new.ID = some old) (hcase : new.Data.switchCase = some w)
    (hne : old.Data.asserted ≠ some w) :
    ∃ st, s.updateAsset new = .panic st ∧
      st.assets.get new.ID =
        some (if new.Desc ≠ "" then { old with Desc := new.Desc } else old) ∧
      (∀ j, j ≠ new.ID → st.assets.get j = s.assets.get j) ∧
      st.users = s.users ∧ st.favourites = s.favourites := by
  have hup := update_other_variant old new w hcase hne
  refine ⟨{ s with
      assets :=
        (s.assets.set new.ID (if new.Desc ≠ "" then { old with Desc := new.Desc } else old)) },
    ?_,
    GoMap.get_set_self _ _ _, fun j hj => GoMap.get_set_ne _ _ _ _ hj, rfl, rfl⟩
  simp only [storage.updateAsset, storage.asset, hold, hup]

theorem updateAsset_other_variant_panics_witness :
    storage11.assets.get chartPatch.ID = some { asset1 with ID := 1 } ∧
    chartPatch.Data.switchCase = some "chart" ∧
    ({ asset1 with ID := 1 } : asset).Data.asserted ≠ some "chart" ∧
    ∃ st, storage11.updateAsset chartPatch = .panic st ∧
      st.assets.get chartPatch.ID =
        some (if chartPatch.Desc ≠ "" then
          { asset1 with ID := 1, Desc := chartPatch.Desc } else { asset1 with ID := 1 }) ∧
      (∀ j, j ≠ chartPatch.ID → st.assets.get j = storage11.assets.get j) ∧
      st.users = storage11.users ∧ st.favourites = storage11.favourites :=
  ⟨by decide, by decide, by decide,
    updateAsset_other_variant_panics storage11 { asset1 with ID := 1 } chartPatch "chart"
      (by decide) (by decide) (by decide)⟩

/-! ## Updating a user -/

theorem user_update_fields (old p : user) :
    old.update p =
      { ID := old.ID
        Email := (if p.Email ≠ "" then p.Email else old.Email)
        Name := (if p.Name ≠ "" then p.Name else old.Name) } := by
  unfold user.update
  by_cases he : p.Email = "" <;> by_cases hn : p.Name = "" <;> simp [he, hn]

/-- C12: when `p.ID` is not a key of `users`, `updateUser(p)` returns the
error of `s.user` and the storage is unchanged; when it is, `updateUser(p)`
returns nil, the stored user keeps its `ID` and takes each of `Email` and
`Name` from `p` when that field of `p` is non-empty and keeps its own
otherwise, and the other users, `assets` and `favourites` are unchanged. -/
theorem updateUser_merges (s : storage) (p : user) :
    (s.users.get p.ID = none → s.updateUser p = (s, some (error.userNotExist p.ID))) ∧
    (∀ old, s.users.get p.ID = some old →
      (s.updateUser p).2 = none ∧
      (s.updateUser p).1.users.get p.ID =
        some { ID := old.ID
               Email := (if p.Email ≠ "" then p.Email else old.Email)
               Name := (if p.Name ≠ "" then p.Name else old.Name) } ∧
      (∀ j, j ≠ p.ID → (s.updateUser p).1.users.get j = s.users.get j) ∧
      (s.updateUser p).1.assets = s.assets ∧
      (s.updateUser p).1.favourites = s.favourites) := by
  constructor
  · intro hnone
    simp [storage.updateUser, storage.user, hnone]
  · intro old hold
    have e : s.updateUser p =
        ({ s with users := s.users.set p.ID (old.update p) }, none) := by
      simp only [storage.updateUser, storage.user, hold]
    rw [e]
    refine ⟨rfl, ?_, fun j hj => GoMap.get_set_ne _ _ _ _ hj, rfl, rfl⟩
    simp only []
    rw [GoMap.get_set_self, user_update_fields]

theorem updateUser_merges_witness :
    storage11.users.get namePatch.ID = some { john with ID := 1 } ∧
    (storage11.updateUser namePatch).2 = none ∧
    (storage11.updateUser namePatch).1.users.get namePatch.ID =
      some { ID := 1
             Email := (if namePatch.Email ≠ "" then namePatch.Email else "john@gmail.com")
             Name := (if namePatch.Name ≠ "" then namePatch.Name else "John") } ∧
    (∀ j, j ≠ namePatch.ID → (storage11.updateUser namePatch).1.users.get j =
      storage11.users.get j) ∧
    (storage11.updateUser namePatch).1.assets = storage11.assets ∧
    (storage11.updateUser namePatch).1.favourites = storage11.favourites :=
  ⟨by decide, (updateUser_merges storage11 namePatch).2 { john with ID := 1 } (by decide)⟩

/-! ## No id twice in a favourites sequence -/

theorem noDuplicates_addFavourites (s : storage) (h : s.NoDuplicates) (u a : Nat) :
    (s.addFavourites u a).1.NoDuplicates := by
  cases hu : s.users.get u with
  | none => rw [storage.addFavourites_no_user s u a hu]; exact h
  | some x =>
    cases ha : s.assets.get a with
    | none => rw [storage.addFavourites_no_asset s u a x hu ha]; exact h
    | some y =>
      by_cases hmem : a ∈ (s.favourites.get u).getD []
      · cases hl : s.favourites.get u with
        | none => simp [hl] at hmem
        | some l =>
          rw [hl] at hmem
          rw [storage.addFavourites_present s u a x y l hu ha hl hmem]
          exact h
      · obtain ⟨-, -, -, -, -, hget⟩ := storage.addFavourites_fresh s u a x y hu ha hmem
        intro v l hv
        rw [hget] at hv
        by_cases hvu : v = u
        · subst hvu
          simp only [if_true, Option.some.injEq] at hv
          subst hv
          have hold : ((s.favourites.get v).getD []).Nodup := by
            cases hl : s.favourites.get v with
            | none => simp
            | some l0 => exact h v l0 hl
          rw [List.nodup_append]
          refine ⟨hold, List.nodup_singleton a, ?_⟩
          intro b hb hb'
          rw [List.mem_singleton] at hb'
          subst hb'
          exact hmem hb
        · simp only [hvu, if_false] at hv
          exact h v l hv

theorem noDuplicates_deleteFavourite (s : storage) (h : s.NoDuplicates) (u a : Nat) :
    (s.deleteFavourite u a).NoDuplicates := by
  intro v l hv
  rw [storage.deleteFavourite_get] at hv
  by_cases hvu : v = u
  · simp only [hvu, if_true, Option.map_eq_some'] at hv
    obtain ⟨l0, hl0, rfl⟩ := hv
    exact (h u l0 hl0).erase a
  · simp only [hvu, if_false] at hv
    exact h v l hv

theorem noDuplicates_deleteAsset (s : storage) (h : s.NoDuplicates) (a : Nat) :
    (s.deleteAsset a).NoDuplicates := by
  intro v l hv
  rw [storage.deleteAsset_get s a h, Option.map_eq_some'] at hv
  obtain ⟨l0, hl0, rfl⟩ := hv
  exact (h v l0 hl0).filter _

theorem noDuplicates_deleteUser (s : storage) (h : s.NoDuplicates) (u : Nat) :
    (s.deleteUser u).NoDuplicates := by
  intro v l hv
  simp only [storage.deleteUser, GoMap.get_del] at hv
  by_cases hvu : v = u
  · simp [hvu] at hv
  · simp only [hvu, if_false] at hv
    exact h v l hv

/-- C13: in a storage reached from `newStorage()` no favourites sequence
holds the same asset id twice; and from any storage with that property,
`addFavourites`, `deleteFavourite`, `deleteAsset` and `deleteUser` lead to a
storage with that property. -/
theorem favourites_no_duplicates (s : storage) :
    (Reachable s → s.NoDuplicates) ∧
    (s.NoDuplicates → ∀ u a,
      (s.addFavourites u a).1.NoDuplicates ∧ (s.deleteFavourite u a).NoDuplicates ∧
      (s.deleteAsset a).NoDuplicates ∧ (s.deleteUser u).NoDuplicates) :=
  ⟨fun h u l hl => (storage.consistent_of_reachable s h u l hl).1,
    fun h u a => ⟨noDuplicates_addFavourites s h u a, noDuplicates_deleteFavourite s h u a,
      noDuplicates_deleteAsset s h a, noDuplicates_deleteUser s h u⟩⟩

theorem favourites_no_duplicates_witness :
    Reachable storageFav ∧ storageFav.NoDuplicates ∧
    (storageFav.addFavourites 1 1).1.favourites.get 1 = some [1] :=
  ⟨reachable_storageFav, (favourites_no_duplicates storageFav).1 reachable_storageFav,
    by decide⟩

/-! ## Every favourite refers to a stored user and a stored asset -/

theorem userFavourites_returns (s : storage) (h : s.Consistent) (u : Nat) (t : String) :
    ∃ r, s.userFavourites u t = .ret r ∧ ∀ e ∈ r.1, ∃ a, e = some a := by
  cases hu : s.users.get u with
  | none =>
    exact ⟨([], some (error.userNotExist u)),
      by simp [storage.userFavourites, storage.user, hu], by simp⟩
  | some x =>
    obtain ⟨found, hfound⟩ := storage.resolved_of_consistent s h u
    refine ⟨((found.filter (fun a => decide (t = "" ∨ a.Type_ = t))).map some, none), ?_, ?_⟩
    · cases hl : s.favourites.get u with
      | none =>
        rw [hl] at hfound
        cases found with
        | nil => simp [storage.userFavourites, storage.user, hu, hl]
        | cons a rest => simp at hfound
      | some ids =>
        rw [hl] at hfound
        simp [storage.userFavourites, storage.user, hu, hl,
          storage.favouritesLoop_resolved s t ids found [] hfound]
    · intro e he
      simp only [List.mem_map] at he
      obtain ⟨a, -, rfl⟩ := he
      exact ⟨a, rfl⟩

/-- C18: in a storage reached from `newStorage()` every key of `favourites`
is a key of `users` and every id in a favourites sequence is a key of
`assets`; so `userFavourites` returns, without a panic, for every user id
and filter, and no element of the slice it returns is a nil asset. -/
theorem favourites_refer_to_stored (s : storage) (h : Reachable s) :
    (∀ u l, s.favourites.get u = some l →
      (∃ y, s.users.get u = some y) ∧ ∀ a ∈ l, ∃ x, s.assets.get a = some x) ∧
    (∀ u t, ∃ r, s.userFavourites u t = .ret r ∧ ∀ e ∈ r.1, ∃ a, e = some a) := by
  have hc := storage.consistent_of_reachable s h
  exact ⟨fun u l hl => ⟨(hc u l hl).2.2, (hc u l hl).2.1⟩,
    fun u t => userFavourites_returns s hc u t⟩

theorem favourites_refer_to_stored_witness :
    Reachable storageFav ∧
    (∀ u l, storageFav.favourites.get u = some l →
      (∃ y, storageFav.users.get u = some y) ∧
        ∀ a ∈ l, ∃ x, storageFav.assets.get a = some x) ∧
    (∀ u t, ∃ r, storageFav.userFavourites u t = .ret r ∧ ∀ e ∈ r.1, ∃ a, e = some a) :=
  ⟨reachable_storageFav, favourites_refer_to_stored storageFav reachable_storageFav⟩

/-! ## Decoding an asset -/

/-- C14: for an envelope that `json.Unmarshal` decodes into `al`,
`UnmarshalJSON` returns the error `unknown asset type` when the tag of `al`
is none of `chart`, `insight`, `audience` (the empty tag of a missing
`type` included), and the error `unknown gender` when the tag is `audience`
and the decoded payload has a gender other than `male`, `female` and the
empty string. -/
theorem UnmarshalJSON_rejects (json : jsonUnmarshal) (a : asset) (b : List Nat) (al : Alias)
    (hal : json.toAlias b = .ok al) :
    (al.Type_ ≠ chartType → al.Type_ ≠ insightType → al.Type_ ≠ audienceType →
      asset.UnmarshalJSON json a b =
        .ret ({ a with ID := al.ID, Type_ := al.Type_, Desc := al.Desc },
          some (error.unknownAssetType al.Type_))) ∧
    (∀ au, al.Type_ = audienceType → json.toAudience al.Data = .ok (some au) →
      au.Gender ≠ male → au.Gender ≠ female → au.Gender ≠ "" →
      asset.UnmarshalJSON json a b =
        .ret ({ a with ID := al.ID, Type_ := al.Type_, Desc := al.Desc },
          some (error.unknownGender au.Gender))) := by
  constructor
  · intro h1 h2 h3
    simp [asset.UnmarshalJSON, hal, h1, h2, h3]
  · intro au hty hau h1 h2 h3
    have hc : ¬ audienceType = chartType := by decide
    have hi : ¬ audienceType = insightType := by decide
    simp [asset.UnmarshalJSON, hal, hty, hau, h1, h2, h3, hc, hi]

theorem UnmarshalJSON_rejects_witness :
    genderBody.toAlias [] = .ok { ID := 0, Type_ := "audience", Desc := "", Data := [] } ∧
    asset.UnmarshalJSON genderBody zeroAsset [] =
      .ret ({ zeroAsset with ID := 0, Type_ := "audience", Desc := "" },
        some (error.unknownGender "unknown")) :=
  ⟨rfl, (UnmarshalJSON_rejects genderBody zeroAsset []
    { ID := 0, Type_ := "audience", Desc := "", Data := [] } rfl).2
    { Gender := "unknown", BirthCountry := "", SocialMediaHoursUsage := 0,
      AgeGroup := { Min := 0, Max := 0 } } rfl rfl (by decide) (by decide) (by decide)⟩

/-- C15, the claim at a concrete input: for the envelope with the tag `chart`
whose raw payload is the literal `null`, `UnmarshalJSON` returns nil and the
payload of the decoded asset is a nil `*chart`: a pointer of the variant the
tag selects that holds no chart and carries no payload field; `validate`
accepts that asset. -/
theorem UnmarshalJSON_null_chart_succeeds :
    asset.UnmarshalJSON nullChartBody zeroAsset [] =
      .ret ({ ID := 0, Type_ := "chart", Desc := "", Data := anyData.chartPtr none }, none) ∧
    asset.validate { ID := 0, Type_ := "chart", Desc := "", Data := anyData.chartPtr none } =
      none := by
  decide

/-- C15, as the code runs: when `UnmarshalJSON` returns nil, the decoded asset
has the id, type tag and description of the envelope `al`, its payload is
the pointer that `json.Unmarshal` decoded from the raw payload of `al` into
the variant the tag selects, and `validate` accepts it.  For a chart and an
insight that pointer is whatever the decode left, nil included (`ch` and
`ins` range over nil and non-nil pointers); for an audience it is non-nil
and its gender is `male`, `female` or the empty string. -/
theorem UnmarshalJSON_decodes (json : jsonUnmarshal) (a : asset) (b : List Nat) (p : asset)
    (h : asset.UnmarshalJSON json a b = .ret (p, none)) :
    ∃ al, json.toAlias b = .ok al ∧ p.ID = al.ID ∧ p.Type_ = al.Type_ ∧ p.Desc = al.Desc ∧
      ((al.Type_ = chartType ∧
          ∃ ch, json.toChart al.Data = .ok ch ∧ p.Data = anyData.chartPtr ch) ∨
        (al.Type_ = insightType ∧
          ∃ ins, json.toInsight al.Data = .ok ins ∧ p.Data = anyData.insightPtr ins) ∨
        (al.Type_ = audienceType ∧
          ∃ au, json.toAudience al.Data = .ok (some au) ∧
            p.Data = anyData.audiencePtr (some au) ∧
            (au.Gender = male ∨ au.Gender = female ∨ au.Gender = ""))) ∧
      p.validate = none := by
  unfold asset.UnmarshalJSON at h
  split at h
  · simp at h
  · next al hal =>
    refine ⟨al, hal, ?_⟩
    simp only [] at h
    split_ifs at h with hc hi hau
    · split at h
      · simp at h
      · next ch hch =>
        simp only [Outcome.ret.injEq, Prod.mk.injEq, and_true] at h
        subst h
        exact ⟨rfl, rfl, rfl, Or.inl ⟨hc, ch, hch, rfl⟩, by simp [asset.validate, hc]⟩
    · split at h
      · simp at h
      · next ins hins =>
        simp only [Outcome.ret.injEq, Prod.mk.injEq, and_true] at h
        subst h
        exact ⟨rfl, rfl, rfl, Or.inr (Or.inl ⟨hi, ins, hins, rfl⟩),
          by
            have hne : ¬ insightType = chartType := by decide
            simp [asset.validate, hi, hne]⟩
    · split at h
      · simp at h
      · simp at h
      · next au hdec =>
        split_ifs at h with hg
        · simp only [Outcome.ret.injEq, Prod.mk.injEq, and_true] at h
          subst h
          exact ⟨rfl, rfl, rfl, Or.inr (Or.inr ⟨hau, au, hdec, rfl, hg⟩),
            by
              have hne1 : ¬ audienceType = chartType := by decide
              have hne2 : ¬ audienceType = insightType := by decide
              simp [asset.validate, hau, hne1, hne2]⟩
        · simp at h
    · simp at h

theorem UnmarshalJSON_decodes_witness :
    asset.UnmarshalJSON audienceBody zeroAsset [] =
      .ret ({ ID := 0, Type_ := "audience", Desc := "just a desc",
              Data := anyData.audiencePtr (some greekAudience) }, none) ∧
    ∃ al, audienceBody.toAlias [] = .ok al ∧ (0 : Nat) = al.ID ∧ "audience" = al.Type_ ∧
      "just a desc" = al.Desc ∧
      ((al.Type_ = chartType ∧
          ∃ ch, audienceBody.toChart al.Data = .ok ch ∧
            anyData.audiencePtr (some greekAudience) = anyData.chartPtr ch) ∨
        (al.Type_ = insightType ∧
          ∃ ins, audienceBody.toInsight al.Data = .ok ins ∧
            anyData.audiencePtr (some greekAudience) = anyData.insightPtr ins) ∨
        (al.Type_ = audienceType ∧
          ∃ au, audienceBody.toAudience al.Data = .ok (some au) ∧
            anyData.audiencePtr (some greekAudience) = anyData.audiencePtr (some au) ∧
            (au.Gender = male ∨ au.Gender = female ∨ au.Gender = ""))) ∧
      asset.validate { ID := 0, Type_ := "audience", Desc := "just a desc",
                       Data := anyData.audiencePtr (some greekAudience) } = none :=
  ⟨by decide, UnmarshalJSON_decodes audienceBody zeroAsset []
    { ID := 0, Type_ := "audience", Desc := "just a desc",
      Data := anyData.audiencePtr (some greekAudience) } (by decide)⟩

/-- C19, as the code runs: for an envelope with the tag `audience` whose raw
payload leaves the `*audience` nil without an error (the literal `null`),
`UnmarshalJSON` does not return: reading `au.Gender` through the nil pointer
panics, after the id, tag and description were written. -/
theorem UnmarshalJSON_null_audience_panics (json : jsonUnmarshal) (a : asset) (b : List Nat)
    (al : Alias) (hal : json.toAlias b = .ok al) (hty : al.Type_ = audienceType)
    (hnull : json.toAudience al.Data = .ok none) :
    asset.UnmarshalJSON json a b =
      .panic { a with ID := al.ID, Type_ := al.Type_, Desc := al.Desc } := by
  have hc : ¬ audienceType = chartType := by decide
  have hi : ¬ audienceType = insightType := by decide
  simp [asset.UnmarshalJSON, hal, hty, hnull, hc, hi]

theorem UnmarshalJSON_null_audience_panics_witness :
    nullBody.toAlias [] = .ok { ID := 0, Type_ := "audience", Desc := "", Data := [] } ∧
    nullBody.toAudience [] = .ok none ∧
    asset.UnmarshalJSON nullBody zeroAsset [] =
      .panic { zeroAsset with ID := 0, Type_ := "audience", Desc := "" } :=
  ⟨rfl, rfl, UnmarshalJSON_null_audience_panics nullBody zeroAsset []
    { ID := 0, Type_ := "audience", Desc := "", Data := [] } rfl rfl rfl⟩

/-! ## Merging a payload of the same variant -/

theorem chart_merge_fields (c v : chart) :
    chart.merge (some c) v =
      some (some
        { Title := (if v.Title ≠ "" then v.Title else c.Title)
          TitleAxisX := (if v.TitleAxisX ≠ "" then v.TitleAxisX else c.TitleAxisX)
          TitleAxisY := (if v.TitleAxisY ≠ "" then v.TitleAxisY else c.TitleAxisY)
          Data := (if v.Data ≠ none then v.Data else c.Data) }) := by
  unfold chart.merge
  by_cases h1 : v.Title = "" <;> by_cases h2 : v.TitleAxisX = "" <;>
    by_cases h3 : v.TitleAxisY = "" <;> by_cases h4 : v.Data = none <;>
    simp [h1, h2, h3, h4]

theorem insight_merge_fields (i v : insight) :
    insight.merge (some i) v =
      some (some { Text := (if v.Text ≠ "" then v.Text else i.Text) }) := by
  unfold insight.merge
  by_cases h1 : v.Text = "" <;> simp [h1]

theorem audience_merge_fields (x v : audience) :
    audience.merge (some x) v =
      some (some
        { Gender := (if v.Gender ≠ "" then v.Gender else x.Gender)
          BirthCountry := (if v.BirthCountry ≠ "" then v.BirthCountry else x.BirthCountry)
          SocialMediaHoursUsage :=
            (if v.SocialMediaHoursUsage ≠ 0 then v.SocialMediaHoursUsage
              else x.SocialMediaHoursUsage)
          AgeGroup :=
            { Min := (if v.AgeGroup.Min ≠ 0 then v.AgeGroup.Min else x.AgeGroup.Min)
              Max := (if v.AgeGroup.Max ≠ 0 then v.AgeGroup.Max else x.AgeGroup.Max) } }) := by
  unfold audience.merge
  by_cases h1 : v.Gender = "" <;> by_cases h2 : v.AgeGroup.Max = 0 <;>
    by_cases h3 : v.AgeGroup.Min = 0 <;> by_cases h4 : v.SocialMediaHoursUsage = 0 <;>
    by_cases h5 : v.BirthCountry = "" <;> simp [h1, h2, h3, h4, h5]

/-- C17: for an asset whose payload is a pointer to a chart, an insight or an
audience and a patch whose `Data` is a value of that variant, `update`
returns; each payload field is the patch's where that is not the zero value
(non-empty string, non-nil bytes, non-zero number) and the stored one
otherwise, the payload keeps its variant, `Type` is the tag of the variant,
`ID` is unchanged, `Desc` is the patch's when non-empty, and `validate`
accepts the result. -/
theorem update_same_variant (a b : asset) :
    (∀ c v, a.Data = anyData.chartPtr (some c) → b.Data = anyData.chartVal v →
      ∃ r, a.update b = .ret r ∧ r.ID = a.ID ∧ r.Type_ = chartType ∧
        r.Desc = (if b.Desc ≠ "" then b.Desc else a.Desc) ∧
        r.Data = anyData.chartPtr (some
          { Title := (if v.Title ≠ "" then v.Title else c.Title)
            TitleAxisX := (if v.TitleAxisX ≠ "" then v.TitleAxisX else c.TitleAxisX)
            TitleAxisY := (if v.TitleAxisY ≠ "" then v.TitleAxisY else c.TitleAxisY)
            Data := (if v.Data ≠ none then v.Data else c.Data) }) ∧
        r.validate = none) ∧
    (∀ i v, a.Data = anyData.insightPtr (some i) → b.Data = anyData.insightVal v →
      ∃ r, a.update b = .ret r ∧ r.ID = a.ID ∧ r.Type_ = insightType ∧
        r.Desc = (if b.Desc ≠ "" then b.Desc else a.Desc) ∧
        r.Data = anyData.insightPtr (some
          { Text := (if v.Text ≠ "" then v.Text else i.Text) }) ∧
        r.validate = none) ∧
    (∀ x v, a.Data = anyData.audiencePtr (some x) → b.Data = anyData.audienceVal v →
      ∃ r, a.update b = .ret r ∧ r.ID = a.ID ∧ r.Type_ = audienceType ∧
        r.Desc = (if b.Desc ≠ "" then b.Desc else a.Desc) ∧
        r.Data = anyData.audiencePtr (some
          { Gender := (if v.Gender ≠ "" then v.Gender else x.Gender)
            BirthCountry := (if v.BirthCountry ≠ "" then v.BirthCountry else x.BirthCountry)
            SocialMediaHoursUsage :=
              (if v.SocialMediaHoursUsage ≠ 0 then v.SocialMediaHoursUsage
                else x.SocialMediaHoursUsage)
            AgeGroup :=
              { Min := (if v.AgeGroup.Min ≠ 0 then v.AgeGroup.Min else x.AgeGroup.Min)
                Max := (if v.AgeGroup.Max ≠ 0 then v.AgeGroup.Max else x.AgeGroup.Max) } }) ∧
        r.validate = none) := by
  obtain ⟨id0, ty0, de0, d0⟩ := a
  refine ⟨?_, ?_, ?_⟩
  · intro c v ha hb
    refine ⟨{ ID := id0, Type_ := chartType
              Desc := (if b.Desc ≠ "" then b.Desc else de0)
              Data := anyData.chartPtr (some
                { Title := (if v.Title ≠ "" then v.Title else c.Title)
                  TitleAxisX := (if v.TitleAxisX ≠ "" then v.TitleAxisX else c.TitleAxisX)
                  TitleAxisY := (if v.TitleAxisY ≠ "" then v.TitleAxisY else c.TitleAxisY)
                  Data := (if v.Data ≠ none then v.Data else c.Data) }) },
      ?_, rfl, rfl, rfl, rfl, ?_⟩
    · simp only [] at ha
      subst ha
      by_cases hdesc : b.Desc = "" <;> simp [asset.update, hb, hdesc, chart_merge_fields]
    · simp [asset.validate]
  · intro i v ha hb
    refine ⟨{ ID := id0, Type_ := insightType
              Desc := (if b.Desc ≠ "" then b.Desc else de0)
              Data := anyData.insightPtr (some
                { Text := (if v.Text ≠ "" then v.Text else i.Text) }) },
      ?_, rfl, rfl, rfl, rfl, ?_⟩
    · simp only [] at ha
      subst ha
      by_cases hdesc : b.Desc = "" <;> simp [asset.update, hb, hdesc, insight_merge_fields]
    · have hne : ¬ insightType = chartType := by decide
      simp [asset.validate, hne]
  · intro x v ha hb
    refine ⟨{ ID := id0, Type_ := audienceType
              Desc := (if b.Desc ≠ "" then b.Desc else de0)
              Data := anyData.audiencePtr (some
                { Gender := (if v.Gender ≠ "" then v.Gender else x.Gender)
                  BirthCountry :=
                    (if v.BirthCountry ≠ "" then v.BirthCountry else x.BirthCountry)
                  SocialMediaHoursUsage :=
                    (if v.SocialMediaHoursUsage ≠ 0 then v.SocialMediaHoursUsage
                      else x.SocialMediaHoursUsage)
                  AgeGroup :=
                    { Min := (if v.AgeGroup.Min ≠ 0 then v.AgeGroup.Min else x.AgeGroup.Min)
                      Max := (if v.AgeGroup.Max ≠ 0 then v.AgeGroup.Max
                        else x.AgeGroup.Max) } }) },
      ?_, rfl, rfl, rfl, rfl, ?_⟩
    · simp only [] at ha
      subst ha
      by_cases hdesc : b.Desc = "" <;> simp [asset.update, hb, hdesc, audience_merge_fields]
    · have hne1 : ¬ audienceType = chartType := by decide
      have hne2 : ¬ audienceType = insightType := by decide
      simp [asset.validate, hne1, hne2]

theorem update_same_variant_witness :
    ({ asset1 with ID := 1 } : asset).Data =
      anyData.insightPtr (some { Text := "A simple insight" }) ∧
    insightPatch.Data = anyData.insightVal { Text := "Another insight" } ∧
    ∃ r, asset.update { asset1 with ID := 1 } insightPatch = .ret r ∧ r.ID = 1 ∧
      r.Type_ = insightType ∧
      r.Desc = (if insightPatch.Desc ≠ "" then insightPatch.Desc else "This is asset 1") ∧
      r.Data = anyData.insightPtr (some
        { Text := (if "Another insight" ≠ "" then "Another insight"
            else "A simple insight") }) ∧
      r.validate = none :=
  ⟨rfl, rfl, (update_same_variant { asset1 with ID := 1 } insightPatch).2.1
    { Text := "A simple insight" } { Text := "Another insight" } rfl rfl⟩

/-! ## The ids issued by `addUser` and `addAsset` -/

theorem reachable_run (ops : List Op) (s : storage) (h : Reachable s) :
    Reachable (s.run ops) := by
  induction ops generalizing s with
  | nil => exact h
  | cons op rest ih =>
    apply ih
    cases op with
    | addUser u => exact Reachable.addUser s u h
    | addAsset a => exact Reachable.addAsset s a h
    | addFavourites u a => exact Reachable.addFavourites s u a h
    | updateUser new => exact Reachable.updateUser s new h
    | updateAsset new => exact Reachable.updateAsset s new h
    | deleteUser u => exact Reachable.deleteUser s u h
    | deleteAsset a => exact Reachable.deleteAsset s a h
    | deleteFavourite u a => exact Reachable.deleteFavourite s u a h

theorem succ_mod_uintSize (n : Nat) : (n % uintSize + 1) % uintSize = (n + 1) % uintSize := by
  simp [Nat.add_mod]

theorem addFavourites_registries (s : storage) (u a : Nat) :
    (s.addFavourites u a).1.users = s.users ∧ (s.addFavourites u a).1.assets = s.assets ∧
    (s.addFavourites u a).1.userCounter = s.userCounter ∧
    (s.addFavourites u a).1.assetCounter = s.assetCounter := by
  unfold storage.addFavourites
  split
  · exact ⟨rfl, rfl, rfl, rfl⟩
  · split
    · exact ⟨rfl, rfl, rfl, rfl⟩
    · simp only []
      split <;> split <;> exact ⟨rfl, rfl, rfl, rfl⟩

theorem deleteLoop_counters (a : Nat) (us : List Nat) (st : storage) :
    (us.foldl (fun st user => st.deleteFavourite user a) st).userCounter = st.userCounter ∧
    (us.foldl (fun st user => st.deleteFavourite user a) st).assetCounter =
      st.assetCounter := by
  induction us generalizing st with
  | nil => exact ⟨rfl, rfl⟩
  | cons u0 rest ih =>
    rw [List.foldl_cons]
    obtain ⟨h1, h2⟩ := ih (st.deleteFavourite u0 a)
    rw [h1, h2]
    unfold storage.deleteFavourite
    split
    · exact ⟨rfl, rfl⟩
    · split <;> exact ⟨rfl, rfl⟩

theorem afterUpdateAsset_cases (s : storage) (new : asset) :
    s.afterUpdateAsset new = s ∨
      ∃ old a, s.assets.get new.ID = some old ∧
        s.afterUpdateAsset new = { s with assets := s.assets.set new.ID a } := by
  unfold storage.afterUpdateAsset storage.updateAsset storage.asset
  cases hget : s.assets.get new.ID with
  | none => exact Or.inl rfl
  | some old =>
    cases hup : old.update new with
    | ret a => exact Or.inr ⟨old, a, rfl, by simp [hup]⟩
    | panic a => exact Or.inr ⟨old, a, rfl, by simp [hup]⟩

theorem deleteAsset_counters (s : storage) (a : Nat) :
    (s.deleteAsset a).userCounter = s.userCounter ∧
    (s.deleteAsset a).assetCounter = s.assetCounter := by
  unfold storage.deleteAsset
  exact deleteLoop_counters a _ { s with assets := s.assets.del a }

theorem deleteFavourite_counters (s : storage) (u a : Nat) :
    (s.deleteFavourite u a).userCounter = s.userCounter ∧
    (s.deleteFavourite u a).assetCounter = s.assetCounter :=
  deleteLoop_counters a [u] s

theorem counted_step (s : storage) (nu na : Nat) (h : s.Counted nu na) (op : Op) :
    (s.step op).Counted (nu + if op.isAddUser then 1 else 0)
      (na + if op.isAddAsset then 1 else 0) := by
  obtain ⟨hu, ha, hku, hka⟩ := h
  cases op with
  | addUser u =>
    have hc : (s.userCounter + 1) % uintSize = (nu + 1) % uintSize := by
      rw [hu, succ_mod_uintSize]
    refine ⟨?_, ha, ?_, hka⟩
    · simpa [storage.step, storage.addUser, Op.isAddUser] using hc
    · intro hlt k x hk
      have hlt' : nu + 1 < uintSize := by simpa [Op.isAddUser] using hlt
      simp only [storage.step, storage.addUser, hc, Nat.mod_eq_of_lt hlt', GoMap.get_set] at hk
      simp only [Op.isAddUser, if_true]
      by_cases hkn : k = nu + 1
      · omega
      · simp only [hkn, if_false] at hk
        have := hku (by omega) k x hk
        omega
  | addAsset a =>
    have hc : (s.assetCounter + 1) % uintSize = (na + 1) % uintSize := by
      rw [ha, succ_mod_uintSize]
    refine ⟨hu, ?_, hku, ?_⟩
    · simpa [storage.step, storage.addAsset, Op.isAddAsset] using hc
    · intro hlt k x hk
      have hlt' : na + 1 < uintSize := by simpa [Op.isAddAsset] using hlt
      simp only [storage.step, storage.addAsset, hc, Nat.mod_eq_of_lt hlt', GoMap.get_set] at hk
      simp only [Op.isAddAsset, if_true]
      by_cases hkn : k = na + 1
      · omega
      · simp only [hkn, if_false] at hk
        have := hka (by omega) k x hk
        omega
  | addFavourites u a =>
    obtain ⟨e1, e2, e3, e4⟩ := addFavourites_registries s u a
    simp only [storage.step, storage.Counted, Op.isAddUser, Op.isAddAsset, e1, e2, e3, e4]
    exact ⟨hu, ha, hku, hka⟩
  | updateUser new =>
    refine ⟨?_, ?_, ?_, ?_⟩
    · simp only [storage.step, storage.updateUser, storage.user]
      split <;> simpa [Op.isAddUser] using hu
    · simp only [storage.step, storage.updateUser, storage.user]
      split <;> simpa [Op.isAddAsset] using ha
    · intro hlt k x hk
      have hlt' : nu < uintSize := by simpa [Op.isAddUser] using hlt
      simp only [Op.isAddUser, Bool.false_eq_true, if_false, Nat.add_zero]
      simp only [storage.step, storage.updateUser, storage.user] at hk
      cases hget : s.users.get new.ID with
      | none =>
        simp only [hget] at hk
        exact hku hlt' k x hk
      | some old =>
        simp only [hget, GoMap.get_set] at hk
        by_cases hkn : k = new.ID
        · subst hkn
          exact hku hlt' _ old hget
        · simp only [hkn, if_false] at hk
          exact hku hlt' k x hk
    · intro hlt k x hk
      have hlt' : na < uintSize := by simpa [Op.isAddAsset] using hlt
      simp only [Op.isAddAsset, Bool.false_eq_true, if_false, Nat.add_zero]
      simp only [storage.step, storage.updateUser, storage.user] at hk
      cases hget : s.users.get new.ID with
      | none =>
        simp only [hget] at hk
        exact hka hlt' k x hk
      | some old =>
        simp only [hget] at hk
        exact hka hlt' k x hk
  | updateAsset new =>
    simp only [storage.step, Op.isAddUser, Op.isAddAsset, Bool.false_eq_true, if_false,
      Nat.add_zero]
    rcases afterUpdateAsset_cases s new with he | ⟨old, a, hold, he⟩
    · rw [he]; exact ⟨hu, ha, hku, hka⟩
    · rw [he]
      refine ⟨hu, ha, hku, ?_⟩
      intro hlt k x hk
      simp only [GoMap.get_set] at hk
      by_cases hkn : k = new.ID
      · subst hkn
        exact hka hlt _ old hold
      · simp only [hkn, if_false] at hk
        exact hka hlt k x hk
  | deleteUser u =>
    simp only [storage.step, Op.isAddUser, Op.isAddAsset, Bool.false_eq_true, if_false,
      Nat.add_zero]
    refine ⟨hu, ha, ?_, hka⟩
    intro hlt k x hk
    simp only [storage.deleteUser, GoMap.get_del] at hk
    by_cases hkn : k = u
    · simp [hkn] at hk
    · simp only [hkn, if_false] at hk
      exact hku hlt k x hk
  | deleteAsset a =>
    simp only [storage.step, Op.isAddUser, Op.isAddAsset, Bool.false_eq_true, if_false,
      Nat.add_zero]
    obtain ⟨e1, e2⟩ := deleteAsset_counters s a
    refine ⟨e1.trans hu, e2.trans ha, ?_, ?_⟩
    · rw [storage.deleteAsset_users]; exact hku
    · intro hlt k x hk
      rw [storage.deleteAsset_assets, GoMap.get_del] at hk
      by_cases hkn : k = a
      · simp [hkn] at hk
      · simp only [hkn, if_false] at hk
        exact hka hlt k x hk
  | deleteFavourite u a =>
    simp only [storage.step, Op.isAddUser, Op.isAddAsset, Bool.false_eq_true, if_false,
      Nat.add_zero]
    obtain ⟨e1, e2⟩ := deleteFavourite_counters s u a
    refine ⟨e1.trans hu, e2.trans ha, ?_, ?_⟩
    · rw [storage.deleteFavourite_users]; exact hku
    · rw [storage.deleteFavourite_assets]; exact hka

theorem counted_run (ops : List Op) (s : storage) (nu na : Nat) (h : s.Counted nu na) :
    (s.run ops).Counted (nu + ops.countP Op.isAddUser) (na + ops.countP Op.isAddAsset) := by
  induction ops generalizing s nu na with
  | nil => simpa [storage.run] using h
  | cons op rest ih =>
    have := ih (s.step op) _ _ (counted_step s nu na h op)
    simp only [List.countP_cons]
    simp only [storage.run, List.foldl_cons] at this ⊢
    have e1 : nu + (List.countP Op.isAddUser rest + if op.isAddUser = true then 1 else 0) =
        nu + (if op.isAddUser = true then 1 else 0) + List.countP Op.isAddUser rest := by omega
    have e2 : na + (List.countP Op.isAddAsset rest + if op.isAddAsset = true then 1 else 0) =
        na + (if op.isAddAsset = true then 1 else 0) + List.countP Op.isAddAsset rest := by
      omega
    rw [e1, e2]
    exact this

theorem counted_newStorage (ops : List Op) :
    (newStorage.run ops).Counted (ops.countP Op.isAddUser) (ops.countP Op.isAddAsset) := by
  have h0 : newStorage.Counted 0 0 := by
    refine ⟨rfl, rfl, ?_, ?_⟩ <;> intro _ k x hk <;> simp [newStorage, GoMap.get] at hk
  simpa using counted_run ops newStorage 0 0 h0

theorem addUser_id (ops : List Op) (u : user) :
    ((newStorage.run ops).addUser u).2 = (ops.countP Op.isAddUser + 1) % uintSize := by
  obtain ⟨hu, -, -, -⟩ := counted_newStorage ops
  simp only [storage.addUser, hu, succ_mod_uintSize]

theorem addAsset_id (ops : List Op) (a : asset) :
    ((newStorage.run ops).addAsset a).2 = (ops.countP Op.isAddAsset + 1) % uintSize := by
  obtain ⟨-, ha, -, -⟩ := counted_newStorage ops
  simp only [storage.addAsset, ha, succ_mod_uintSize]

theorem countP_later (p : Op → Bool) (ops later : List Op) (op : Op) (hop : p op = true) :
    (ops ++ op :: later).countP p = ops.countP p + 1 + later.countP p := by
  rw [List.countP_append, List.countP_cons]
  simp only [hop, if_true]
  omega

/-- C11: after any calls `ops` from `newStorage()`, of which `n` are calls of
`addUser`, with `n + 1` below 2^64 (the range of the `uint` counter), the
next `addUser` returns `n + 1`: the k-th call returns k, whatever other
calls are interleaved.  So the first id is 1, the id is not a key of `users`
before the insert (no stored user is overwritten), and every later call of
`addUser` returns a greater id (ids are strictly increasing and none is
issued twice, also after a delete).  The same holds for `addAsset` and
`assets`. -/
theorem ids_count_calls (ops : List Op) (u : user) (a : asset) :
    (ops.countP Op.isAddUser + 1 < uintSize →
      ((newStorage.run ops).addUser u).2 = ops.countP Op.isAddUser + 1 ∧
      1 ≤ ((newStorage.run ops).addUser u).2 ∧
      (newStorage.run ops).users.get ((newStorage.run ops).addUser u).2 = none ∧
      ∀ later u', (ops ++ Op.addUser u :: later).countP Op.isAddUser + 1 < uintSize →
        ((newStorage.run ops).addUser u).2 <
          ((newStorage.run (ops ++ Op.addUser u :: later)).addUser u').2) ∧
    (ops.countP Op.isAddAsset + 1 < uintSize →
      ((newStorage.run ops).addAsset a).2 = ops.countP Op.isAddAsset + 1 ∧
      1 ≤ ((newStorage.run ops).addAsset a).2 ∧
      (newStorage.run ops).assets.get ((newStorage.run ops).addAsset a).2 = none ∧
      ∀ later a', (ops ++ Op.addAsset a :: later).countP Op.isAddAsset + 1 < uintSize →
        ((newStorage.run ops).addAsset a).2 <
          ((newStorage.run (ops ++ Op.addAsset a :: later)).addAsset a').2) := by
  obtain ⟨-, -, hku, hka⟩ := counted_newStorage ops
  refine ⟨?_, ?_⟩
  · intro hlt
    have hid : ((newStorage.run ops).addUser u).2 = ops.countP Op.isAddUser + 1 := by
      rw [addUser_id, Nat.mod_eq_of_lt hlt]
    refine ⟨hid, by omega, ?_, ?_⟩
    · rw [hid]
      cases hget : (newStorage.run ops).users.get (ops.countP Op.isAddUser + 1) with
      | none => rfl
      | some x =>
        have := hku (by omega) _ x hget
        omega
    · intro later u' hlater
      rw [hid, addUser_id, Nat.mod_eq_of_lt hlater, countP_later _ _ _ _ rfl]
      omega
  · intro hlt
    have hid : ((newStorage.run ops).addAsset a).2 = ops.countP Op.isAddAsset + 1 := by
      rw [addAsset_id, Nat.mod_eq_of_lt hlt]
    refine ⟨hid, by omega, ?_, ?_⟩
    · rw [hid]
      cases hget : (newStorage.run ops).assets.get (ops.countP Op.isAddAsset + 1) with
      | none => rfl
      | some x =>
        have := hka (by omega) _ x hget
        omega
    · intro later a' hlater
      rw [hid, addAsset_id, Nat.mod_eq_of_lt hlater, countP_later _ _ _ _ rfl]
      omega

theorem ids_count_calls_witness :
    [Op.addUser john, Op.deleteUser 1].countP Op.isAddUser + 1 < uintSize ∧
    ((newStorage.run [Op.addUser john, Op.deleteUser 1]).addUser john).2 = 2 ∧
    (newStorage.run [Op.addUser john, Op.deleteUser 1]).users.get 1 = none ∧
    (newStorage.run [Op.addUser john, Op.deleteUser 1]).users.get 2 = none :=
  ⟨by decide,
    ((ids_count_calls [Op.addUser john, Op.deleteUser 1] john asset1).1 (by decide)).1,
    by decide,
    ((ids_count_calls [Op.addUser john, Op.deleteUser 1] john asset1).1 (by decide)).2.2.1⟩

/-! ## The paging of `handleGetFavourites` -/

/-- C20, as the code runs: for the page 9223372036854776, which
`strconv.Atoi` accepts, `page*pageSize` wraps to a negative `int`, `start`
is that negative number, and the slice expression `assets[start:end]`
panics, whatever the list and the limit. -/
theorem handleGetFavourites_page_overflow {α : Type} (assets : List α) (capacity : Nat)
    (limit : Int) :
    9223372036854776 ≤ (2 : Int) ^ 63 - 1 ∧
    wrapInt (9223372036854776 * pageSize) = -9223372036854775616 ∧
    min (wrapInt (9223372036854776 * pageSize)) (assets.length : Int) < 0 ∧
    handleGetFavouritesPage assets capacity 9223372036854776 limit = .panic () := by
  have hw : wrapInt (9223372036854776 * pageSize) = -9223372036854775616 := by decide
  have hmin : min (wrapInt (9223372036854776 * pageSize)) (assets.length : Int) =
      -9223372036854775616 := by
    rw [hw]
    unfold min
    have : (-9223372036854775616 : Int) < (assets.length : Int) := by
      have := Int.ofNat_nonneg assets.length
      omega
    simp [this]
  refine ⟨by decide, hw, by rw [hmin]; decide, ?_⟩
  unfold handleGetFavouritesPage
  simp only [hmin, sliceExpr]
  simp

theorem wrapInt_of_range (z : Int) (hlo : -(2 : Int) ^ 63 ≤ z) (hhi : z < 2 ^ 63) :
    wrapInt z = z := by
  unfold wrapInt
  omega

theorem sliceExpr_length {α : Type} (assets : List α) (capacity : Nat) (low high : Int)
    (h0 : 0 ≤ low) (h1 : low ≤ high) (h2 : high ≤ (assets.length : Int))
    (hcap : assets.length ≤ capacity) :
    ∃ l, sliceExpr assets capacity low high = some l ∧ (l.length : Int) = high - low := by
  refine ⟨(assets.take high.toNat).drop low.toNat, ?_, ?_⟩
  · unfold sliceExpr
    have : high ≤ (capacity : Int) := by omega
    simp [h0, h1, this]
  · simp only [List.length_drop, List.length_take]
    omega

/-- The paging when nothing overflows: for `page >= 0` with
`(page+1)*pageSize` below 2^63, `start` and `end` satisfy
`0 <= start <= end <= n`, the two slice expressions do not panic, the page
holds `end - start` elements, at most `pageSize`, none when `page*pageSize`
is at or beyond `n`, and a limit `>= 0` leaves `min(limit, end - start)`. -/
theorem handleGetFavourites_page_in_range {α : Type} (assets : List α) (capacity : Nat)
    (page limit : Int) (hp : 0 ≤ page) (hov : (page + 1) * pageSize < 2 ^ 63)
    (hcap : assets.length ≤ capacity) :
    0 ≤ min (page * pageSize) (assets.length : Int) ∧
    min (page * pageSize) (assets.length : Int) ≤
      min ((page + 1) * pageSize) (assets.length : Int) ∧
    min ((page + 1) * pageSize) (assets.length : Int) ≤ (assets.length : Int) ∧
    min ((page + 1) * pageSize) (assets.length : Int) -
      min (page * pageSize) (assets.length : Int) ≤ pageSize ∧
    ((assets.length : Int) ≤ page * pageSize →
      min ((page + 1) * pageSize) (assets.length : Int) -
        min (page * pageSize) (assets.length : Int) = 0) ∧
    ∃ l, handleGetFavouritesPage assets capacity page limit = .ret l ∧
      (l.length : Int) =
        (if limit ≥ 0 then
          min limit (min ((page + 1) * pageSize) (assets.length : Int) -
            min (page * pageSize) (assets.length : Int))
        else min ((page + 1) * pageSize) (assets.length : Int) -
            min (page * pageSize) (assets.length : Int)) := by
  have hps : pageSize = 1000 := rfl
  rw [hps] at hov ⊢
  have hn := Int.ofNat_nonneg assets.length
  have hw1 : wrapInt (page * pageSize) = page * 1000 := by
    rw [hps]; exact wrapInt_of_range _ (by omega) (by omega)
  have hw2 : wrapInt (page + 1) = page + 1 := wrapInt_of_range _ (by omega) (by omega)
  have hw3 : wrapInt (wrapInt (page + 1) * pageSize) = (page + 1) * 1000 := by
    rw [hw2, hps]; exact wrapInt_of_range _ (by omega) (by omega)
  have hs0 : 0 ≤ min (page * 1000) (assets.length : Int) := by
    unfold min; split <;> omega
  have hse : min (page * 1000) (assets.length : Int) ≤
      min ((page + 1) * 1000) (assets.length : Int) := by
    unfold min; split <;> split <;> omega
  have hen : min ((page + 1) * 1000) (assets.length : Int) ≤ (assets.length : Int) := by
    unfold min; split <;> omega
  have hsz : min ((page + 1) * 1000) (assets.length : Int) -
      min (page * 1000) (assets.length : Int) ≤ 1000 := by
    unfold min; split <;> split <;> omega
  have hbeyond : (assets.length : Int) ≤ page * 1000 →
      min ((page + 1) * 1000) (assets.length : Int) -
        min (page * 1000) (assets.length : Int) = 0 := by
    intro h
    unfold min; split <;> split <;> omega
  refine ⟨hs0, hse, hen, hsz, hbeyond, ?_⟩
  obtain ⟨l1, hl1, hlen1⟩ := sliceExpr_length assets capacity _ _ hs0 hse hen hcap
  have hpage : page ≥ 0 := hp
  by_cases hlim : limit ≥ 0
  · have hm0 : 0 ≤ min limit (l1.length : Int) := by
      have := Int.ofNat_nonneg l1.length
      unfold min; split <;> omega
    have hm1 : min limit (l1.length : Int) ≤ (l1.length : Int) := by
      unfold min; split <;> omega
    have hcap1 : l1.length ≤ capacity - (min (page * 1000) (assets.length : Int)).toNat := by
      omega
    obtain ⟨l2, hl2, hlen2⟩ := sliceExpr_length l1 _ 0 _ (le_refl 0) hm0 hm1 hcap1
    refine ⟨l2, ?_, ?_⟩
    · simp only [handleGetFavouritesPage, hpage, if_true, hw1, hw3, hl1, Option.map_some',
        hlim, hl2]
    · rw [hlen2, hlen1]
      simp [hlim]
  · refine ⟨l1, ?_, ?_⟩
    · simp only [handleGetFavouritesPage, hpage, if_true, hw1, hw3, hl1, Option.map_some',
        hlim, if_false]
    · rw [hlen1]
      simp [hlim]

/-! ## The mutexes held at each access -/

theorem guarded_single_collection (s : storage) (u a : Nat) (pu : user) (pa : asset) :
    guarded storage.getUsersEvents = true ∧ guarded storage.getAssetsEvents = true ∧
    guarded storage.userWithRLockEvents = true ∧
    guarded storage.assetWithRLockEvents = true ∧
    guarded storage.addUserEvents = true ∧ guarded storage.addAssetEvents = true ∧
    guarded (s.updateUserEvents pu) = true ∧ guarded (s.updateAssetEvents pa) = true ∧
    guarded storage.deleteUserEvents = true ∧
    guarded (s.deleteFavouriteEvents u a) = true := by
  refine ⟨by decide, by decide, by decide, by decide, by decide, by decide, ?_, ?_,
    by decide, ?_⟩
  · unfold storage.updateUserEvents
    cases s.user pu.ID <;> simp [guarded, guardedFrom]
  · unfold storage.updateAssetEvents
    cases s.asset pa.ID <;> simp [guarded, guardedFrom]
  · unfold storage.deleteFavouriteEvents
    cases s.favourites.get u with
    | none => simp [guarded, guardedFrom]
    | some l => cases h : storage.rangeIndex a l <;> simp [guarded, guardedFrom, h]

/-- C16, as the code runs: `addFavourites` and `userFavourites` read `users`
(through `s.user`) while the only mutex held is `favouritesMu`, and
`deleteAsset` reads `favourites` (the range) while the only mutex held is
`assetsMu`; so on every storage and for all arguments these three calls make
an access without the mutex of the collection accessed. -/
theorem lock_discipline_broken (s : storage) (u a : Nat) (t : String) :
    guarded (s.addFavouritesEvents u a) = false ∧
    guarded (s.userFavouritesEvents u t) = false ∧
    guarded (s.deleteAssetEvents a) = false := by
  refine ⟨?_, ?_, ?_⟩
  · simp [storage.addFavouritesEvents, guarded, guardedFrom]
  · simp [storage.userFavouritesEvents, guarded, guardedFrom]
  · simp [storage.deleteAssetEvents, guarded, guardedFrom]

end Service
